import Mathlib

/-!
Shallow embedding of the static dependency-injection engine in
`packages/core/src/di/injector.ts` (the `StaticInjector` and its helpers).

Modelling choices, each tied to the source:

* JavaScript values that the engine can produce or store are modelled by the
  inductive `Value`.  Object identity (reference equality) is modelled by a
  numeric id carried in `Value.obj`; the injector instance returned for the
  self token is `Value.injRef sid` where `sid` is the scope's id.
* Tokens (`getId`'s argument) are modelled by `Token`.  In the source a token
  id is the string `typeof + '_' + value` for primitives and
  `typeof + '_' + counter` (cached on the object through an expando property)
  for reference-like tokens; multi-provider constituent records get the munged
  id `'_' + index + '_' + id`.  Both schemes are injective on the ids that can
  actually occur, and `RKey` encodes exactly that injective structure
  (`RKey.tok` for `getId` results, `RKey.munged` for munged ids).
* The tri-state value slot (`EMPTY` sentinel / `CIRCULAR` sentinel /
  a resolved value, compared with `==`/`===` in the source) is the tagged
  `Slot` type.  The sentinels are module-private objects in the source, so a
  user-provided value can never alias them; the tagged encoding is faithful.
* User construction functions (`useFactory` / `useClass` bodies) are an
  environment `FnEnv` mapping a function id to a pure, possibly failing
  function of the `this` value and the argument list.  The state `St` logs
  every invocation of a user function in `St.calls`, which lets theorems say
  "the recipe was not re-invoked".
* Thrown errors are `JsError`.  JavaScript preserves the identity of a thrown
  error object even when `StaticInjector.get` rewrites its message, so the
  model keeps a provenance `tag` alongside the rewritten text, plus the
  `ngTempTokenPath` / `ngTokenPath` side channels of the source.
* The recursive resolver (`StaticInjector.get` / `tryResolveToken` /
  `resolveToken` and the dependency loop inside `resolveToken`) is a single
  fuel-indexed interpreter `run`; fuel only converts nontermination into the
  distinguished `ErrTag.fuelOut` error and every theorem states an explicit
  sufficient fuel.
-/

/-- Kinds of tokens that `getId` accepts: the `Injector` class itself (the
self token seeded by the constructor), reference-like tokens (`isFn` tells a
function from a plain object, mirroring `typeof`), primitive string and number
tokens, and the array object that becomes the token of a dependency entry when
an annotation array contains no underlying token (source `computeDeps`). -/
inductive Token where
  | injector : Token
  | ref : Bool → Nat → Token
  | str : String → Token
  | num : Int → Token
  | arrObj : Nat → Token
deriving DecidableEq, Repr

/-- Registry keys.  `RKey.tok t` models the string `getId(t)` and
`RKey.munged i k` models `'_' + i + '_' + k` from
`recursivelyProcessProviders`; the string scheme of the source is injective on
reachable ids and this inductive encodes that injectivity directly. -/
inductive RKey where
  | tok : Token → RKey
  | munged : Nat → RKey → RKey
deriving DecidableEq, Repr

/-- The model of `getId`: every token maps to its registry key.  The source
throws on falsy tokens; the `Token` type only contains truthy tokens. -/
def getId (t : Token) : RKey := RKey.tok t

/-- Runtime values: `undefined`, `null`, booleans, numbers, strings, object
references (by identity id), the injector instance of scope `sid`, and arrays
(produced by `MULTI_PROVIDER_FN`). -/
inductive Value where
  | undef : Value
  | null : Value
  | bool : Bool → Value
  | num : Int → Value
  | str : String → Value
  | obj : Nat → Value
  | injRef : Nat → Value
  | arrV : List Value → Value

/-- The value slot of a record: `empty` is the `EMPTY` sentinel, `circular`
the `CIRCULAR` sentinel used for cycle detection, `resolved v` a memoized
value (`record.value = value` in `resolveToken`). -/
inductive Slot where
  | empty : Slot
  | circular : Slot
  | resolved : Value → Slot

/-- The construction function stored in a record: `IDENT`, the shared
`MULTI_PROVIDER_FN`, a user function/class identified by an environment index,
or the `Injector` abstract class used as a constructor (only reachable through
`provide: Injector` shorthand). -/
inductive RecFn where
  | ident : RecFn
  | multiFn : RecFn
  | user : Nat → RecFn
  | injectorCtor : RecFn
deriving DecidableEq, Repr

/-- Modifier bit for `Optional` (source `OPT_OPTIONAL`). -/
def OPT_OPTIONAL : Nat := 1
/-- Modifier bit for checking the own registry (source `OPT_CHECK_SELF`). -/
def OPT_CHECK_SELF : Nat := 2
/-- Modifier bit for delegating to the parent (source `OPT_CHECK_PARENT`). -/
def OPT_CHECK_PARENT : Nat := 4
/-- Default options: check self, then check parent (source `OPT_DEFAULT`). -/
def OPT_DEFAULT : Nat := OPT_CHECK_PARENT + OPT_CHECK_SELF

/-- A normalized dependency reference (source interface `DependencyRecord`). -/
structure DependencyRecord where
  id : RKey
  token : Token
  options : Nat
deriving DecidableEq, Repr

/-- A resolution record (source interface `Record`). -/
structure Record where
  token : Token
  fn : RecFn
  useNew : Bool
  deps : List DependencyRecord
  value : Slot

/-- A registry: insertion-ordered association list from key to record,
modelling the string-keyed `Records` object of the source. -/
abbrev Records : Type := List (RKey × Record)

/-- Association-list lookup (property read on a `Records` object). -/
def alook {κ : Type} [DecidableEq κ] {α : Type} : List (κ × α) → κ → Option α
  | [], _ => none
  | (k, v) :: t, q => if k = q then some v else alook t q

/-- Association-list update: overwrite the binding of `k` in place, or append
a new binding (property write on a `Records` object, which preserves insertion
order for existing keys and appends new keys). -/
def aset {κ : Type} [DecidableEq κ] {α : Type} : List (κ × α) → κ → α → List (κ × α)
  | [], k, r => [(k, r)]
  | (k', r') :: t, k, r => if k' = k then (k, r) :: t else (k', r') :: aset t k r

/-- Error provenance tags.  JavaScript keeps the identity of a thrown error
object while `StaticInjector.get` rewrites its message; the tag models that
identity so theorems can name which failure occurred. -/
inductive ErrTag where
  | circular : ErrTag
  | noProvider : ErrTag
  | functionNotSupported : ErrTag
  | unexpectedProvider : ErrTag
  | invalidProvider : ErrTag
  | depsRequired : ErrTag
  | mixedMulti : ErrTag
  | userErr : ErrTag
  | fuelOut : ErrTag
  | internal : ErrTag
deriving DecidableEq, Repr

/-- A thrown error: provenance tag, message text, whether the message starts
with the `NO_NEW_LINE` marker `ɵ` (modelled as a flag instead of the literal
character), and the `ngTempTokenPath` / `ngTokenPath` side channels (`none`
models an absent or nulled-out property). -/
structure JsError where
  tag : ErrTag
  msg : String
  noNewLine : Bool
  tempPath : Option (List Token)
  tokenPath : Option (List Token)
deriving DecidableEq, Repr

/-- Model of the external `stringify` collaborator, used only to build
human-readable messages (out of scope for the engine per the specification;
any rendering works, message content is compared through tags). -/
def stringify : Token → String
  | Token.injector => "Injector"
  | Token.ref _ _ => "object"
  | Token.str s => s
  | Token.num _ => "number"
  | Token.arrObj _ => "Array"

/-- Replace every newline by newline plus two spaces, the
`text.replace(NEW_LINE, '\n  ')` step of `staticError`. -/
def indentChars : List Char → List Char
  | [] => []
  | c :: t => if c = '\n' then '\n' :: ' ' :: ' ' :: indentChars t else c :: indentChars t

/-- String version of `indentChars`. -/
def indentNL (s : String) : String := ⟨indentChars s.data⟩

/-- Model of `staticError(text, obj)`: build the wrapped message.  The
`context` argument is the already-rendered description of `obj`. -/
def staticError (tag : ErrTag) (text : String) (context : String) : JsError :=
  { tag := tag
    msg := "StaticInjectorError[" ++ context ++ "]: " ++ indentNL text
    noNewLine := false
    tempPath := none
    tokenPath := none }

/-- The `Circular dependency` error thrown by `resolveToken`; its message
carries the `NO_NEW_LINE` marker. -/
def circularErr : JsError :=
  { tag := ErrTag.circular, msg := "Circular dependency", noNewLine := true
    tempPath := none, tokenPath := none }

/-- The `NullInjectorError` thrown by `_NullInjector.get`. -/
def noProviderErr (t : Token) : JsError :=
  { tag := ErrTag.noProvider
    msg := "NullInjectorError: No provider for " ++ stringify t ++ "!"
    noNewLine := false, tempPath := none, tokenPath := none }

/-- Wrapper for an error thrown by a user factory or class body
(`if (!(e instanceof Error)) e = new Error(e)` in `tryResolveToken`). -/
def userError (m : String) : JsError :=
  { tag := ErrTag.userErr, msg := m, noNewLine := false
    tempPath := none, tokenPath := none }

/-- Out-of-fuel marker of the interpreter; the source has no such error, fuel
only turns nontermination into a distinguished result. -/
def fuelErr : JsError :=
  { tag := ErrTag.fuelOut, msg := "", noNewLine := false
    tempPath := none, tokenPath := none }

/-- Unreachable internal-shape marker of the interpreter (a dependency-list
call can only answer with a list result). -/
def internalErr : JsError :=
  { tag := ErrTag.internal, msg := "", noNewLine := false
    tempPath := none, tokenPath := none }

/-- The scope chain: `Scope.null` is `Injector.NULL` (the terminal
`_NullInjector`), `Scope.node sid parent` a `StaticInjector` whose registry
lives in the store under `sid`. -/
inductive Scope where
  | null : Scope
  | node : Nat → Scope → Scope
deriving DecidableEq, Repr

/-- Mutable state threaded through a resolution: the registries of every
scope (keyed by scope id), the fresh-object counter backing `Object.create`,
and the log of user construction-function invocations. -/
structure St where
  store : List (Nat × Records)
  fresh : Nat
  calls : List Nat

/-- The registry of scope `sid` (empty if the scope id is unknown). -/
def stRecs (st : St) (sid : Nat) : Records := (alook st.store sid).getD []

/-- Write the value slot of record `k` in scope `sid` (the mutations
`record.value = ...` of the source; the record object is aliased through its
key because the registry's shape is fixed after construction). -/
def setSlot (st : St) (sid : Nat) (k : RKey) (s : Slot) : St :=
  let recs := stRecs st sid
  match alook recs k with
  | none => st
  | some r => { st with store := aset st.store sid (aset recs k { r with value := s }) }

/-- Environment giving the behavior of user construction functions: function
id, `this` value, argument list, and either a produced value or a thrown
message. -/
def FnEnv := Nat → Value → List Value → Except String Value

/-- The `if (useNew && value === undefined) value = obj` fixup of
`resolveToken`: a class construction that returns `undefined` yields the
freshly created instance. -/
def newFixup : Bool → Value → Value → Value
  | true, inst, Value.undef => inst
  | _, _, v => v

/-- Invoke a record's construction function (`resolveToken` lines: the
`Object.create` / `fn.apply` / undefined-result fixup).  Returns the produced
value or the thrown error, together with the evolved state (fresh-object
counter, invocation log). -/
def applyFn (env : FnEnv) (st : St) (fn : RecFn) (useNew : Bool) (args : List Value) :
    Except JsError Value × St :=
  let inst : Value := Value.obj st.fresh
  let st1 : St := if useNew then { st with fresh := st.fresh + 1 } else st
  match fn with
  | RecFn.ident => (Except.ok (newFixup useNew inst (args.headD Value.undef)), st1)
  | RecFn.multiFn => (Except.ok (newFixup useNew inst (Value.arrV args)), st1)
  | RecFn.injectorCtor => (Except.ok (newFixup useNew inst Value.undef), st1)
  | RecFn.user i =>
      let st2 : St := { st1 with calls := st1.calls ++ [i] }
      match env i (if useNew then inst else Value.undef) args with
      | Except.error m => (Except.error (userError m), st2)
      | Except.ok v => (Except.ok (newFixup useNew inst v), st2)

/-- The `notFoundValue` argument of `get`: the `THROW_IF_NOT_FOUND` sentinel
or an actual value (`Value.undef` models an omitted argument, which triggers
`_NullInjector.get`'s default parameter exactly like the sentinel). -/
inductive NotFound where
  | throwIfNotFound : NotFound
  | value : Value → NotFound

/-- Reformatting done in the `catch` of `StaticInjector.get`: pull the
accumulated token path, strip or prepend the newline marker, wrap through
`staticError` with the path rendered `a -> b -> c`, store the path under
`ngTokenPath` and null out `ngTempTokenPath`.  The error object keeps its
identity (tag). -/
def reformatError (e : JsError) : JsError :=
  let path : List Token := e.tempPath.getD []
  let message : String := if e.noNewLine then e.msg else "\n" ++ e.msg
  { tag := e.tag
    msg := "StaticInjectorError[" ++ String.intercalate " -> " (path.map stringify) ++ "]: "
       ++ indentNL message
    noNewLine := false
    tempPath := none
    tokenPath := some path }

/-- Call descriptor of the fuel-indexed interpreter: `getC` is
`Injector.get` on a scope (`_NullInjector.get` or `StaticInjector.get`),
`tryC` is `tryResolveToken`, `resC` is `resolveToken`, `depsC` is the
dependency-resolution loop inside `resolveToken`.  `rid` is the key under
which the `record` argument of the source functions lives in scope `sid`'s
registry (`none` models an `undefined` record). -/
inductive CallK where
  | getC : Scope → Token → NotFound → CallK
  | tryC : Nat → Scope → Token → Option RKey → NotFound → CallK
  | resC : Nat → Scope → Token → Option RKey → NotFound → CallK
  | depsC : Nat → Scope → List DependencyRecord → CallK

/-- Result carrier: single value for `getC`/`tryC`/`resC`, value list for
`depsC`. -/
inductive RVal where
  | one : Value → RVal
  | many : List Value → RVal

/-- The resolution engine, one fuel unit per nested call.  Each branch is a
direct transcription of the corresponding source function:

* `getC` on `Scope.null`: `_NullInjector.get` (default parameter makes an
  omitted / `undefined` `notFoundValue` equal to `THROW_IF_NOT_FOUND`).
* `getC` on a `StaticInjector`: look the record up under `getId(token)`, run
  `tryResolveToken`, and on failure rewrite the error via `reformatError`.
* `tryC`: run `resolveToken`; on failure prepend the token to
  `ngTempTokenPath` and reset the record's slot to `EMPTY` if it currently
  holds the `CIRCULAR` sentinel.
* `resC`: memoized-value hit, circular-detection throw, or mark the slot
  in-progress, resolve the dependency list, invoke the construction function
  and memoize.  Without a local record, delegate to `parent.get`.
* `depsC`: for each dependency, check the own registry only when
  `OPT_CHECK_SELF` is set; delegate to the real parent or to the null
  injector according to `OPT_CHECK_PARENT`; pass `null` as the not-found
  value when `OPT_OPTIONAL` is set. -/
def run (env : FnEnv) : Nat → CallK → St → Except JsError RVal × St
  | 0, _, st => (Except.error fuelErr, st)
  | Nat.succ f, c, st =>
    match c with
    | CallK.getC Scope.null token nf =>
      match nf with
      | NotFound.throwIfNotFound => (Except.error (noProviderErr token), st)
      | NotFound.value Value.undef => (Except.error (noProviderErr token), st)
      | NotFound.value v => (Except.ok (RVal.one v), st)
    | CallK.getC (Scope.node sid parent) token nf =>
      let k := getId token
      let rid : Option RKey := if (alook (stRecs st sid) k).isSome then some k else none
      match run env f (CallK.tryC sid parent token rid nf) st with
      | (Except.ok v, st') => (Except.ok v, st')
      | (Except.error e, st') => (Except.error (reformatError e), st')
    | CallK.tryC sid parent token rid nf =>
      match run env f (CallK.resC sid parent token rid nf) st with
      | (Except.ok v, st') => (Except.ok v, st')
      | (Except.error e, st') =>
        let e' := { e with tempPath := some (token :: e.tempPath.getD []) }
        let st'' :=
          match rid with
          | some k =>
            match alook (stRecs st' sid) k with
            | some r =>
              match r.value with
              | Slot.circular => setSlot st' sid k Slot.empty
              | _ => st'
            | none => st'
          | none => st'
        (Except.error e', st'')
    | CallK.resC sid parent token rid nf =>
      match rid with
      | none => run env f (CallK.getC parent token nf) st
      | some k =>
        match alook (stRecs st sid) k with
        | none => run env f (CallK.getC parent token nf) st
        | some r =>
          match r.value with
          | Slot.resolved v => (Except.ok (RVal.one v), st)
          | Slot.circular => (Except.error circularErr, st)
          | Slot.empty =>
            let st1 := setSlot st sid k Slot.circular
            match run env f (CallK.depsC sid parent r.deps) st1 with
            | (Except.error e, st2) => (Except.error e, st2)
            | (Except.ok (RVal.one _), st2) => (Except.error internalErr, st2)
            | (Except.ok (RVal.many vs), st2) =>
              match applyFn env st2 r.fn r.useNew vs with
              | (Except.error e, st3) => (Except.error e, st3)
              | (Except.ok v, st3) => (Except.ok (RVal.one v), setSlot st3 sid k (Slot.resolved v))
    | CallK.depsC sid parent ds =>
      match ds with
      | [] => (Except.ok (RVal.many []), st)
      | d :: rest =>
        let present := (d.options &&& OPT_CHECK_SELF) != 0
            && (alook (stRecs st sid) d.id).isSome
        let rid : Option RKey := if present then some d.id else none
        let inj : Scope :=
          if !present && ((d.options &&& OPT_CHECK_PARENT) == 0) then Scope.null else parent
        let nf : NotFound :=
          if (d.options &&& OPT_OPTIONAL) != 0 then NotFound.value Value.null
          else NotFound.throwIfNotFound
        match run env f (CallK.tryC sid inj d.token rid nf) st with
        | (Except.error e, st') => (Except.error e, st')
        | (Except.ok (RVal.many _), st') => (Except.error internalErr, st')
        | (Except.ok (RVal.one v), st') =>
          match run env f (CallK.depsC sid parent rest) st' with
          | (Except.ok (RVal.many vs), st'') => (Except.ok (RVal.many (v :: vs)), st'')
          | (Except.ok (RVal.one _), st'') => (Except.error internalErr, st'')
          | (Except.error e, st'') => (Except.error e, st'')

/-- Dependency modifier annotations that can appear inside an array-valued
entry of a provider's `deps` list (source `computeDeps`): `Optional`, `Self`,
`SkipSelf`, `Inject(token)`, or any other entry, which becomes the underlying
token itself (the `else` branch `token = resolveForwardRef(annotation)`). -/
inductive DepAnn where
  | optional : DepAnn
  | self : DepAnn
  | skipSelf : DepAnn
  | inject : Token → DepAnn
  | other : Token → DepAnn
deriving DecidableEq, Repr

/-- An entry of a provider's `deps` array: a bare token, or an annotation
array.  `tag` is the identity of the array object itself, which becomes the
dependency token when no annotation supplies one (the source leaves `token`
bound to the array in that case and calls `getId` on it). -/
inductive DepEntry where
  | plain : Token → DepEntry
  | annotated : Nat → List DepAnn → DepEntry
deriving DecidableEq, Repr

/-- A provider description object `{provide: ..., ...}` as inspected by
`resolveProvider` / `computeDeps`: each `Option` field models presence of the
corresponding property (`USE_VALUE in provider` is a presence test, so
`useValue: undefined` is still present).  `useFactory` and `useCls` carry the
environment index of the user function; `useCls` is the source's `useClass`
property.  `multi` models `provider[MULTI] === true`. -/
structure ProviderDesc where
  provide : Token
  useValue : Option Value := none
  useFactory : Option Nat := none
  useExisting : Option Token := none
  useCls : Option Nat := none
  deps : Option (List DepEntry) := none
  multi : Bool := false

/-- The five falsy JavaScript values a provider list entry can be; a falsy
entry is skipped by the `if (provider)` guard of
`recursivelyProcessProviders`. -/
inductive FalsyKind where
  | vNull : FalsyKind
  | vUndefined : FalsyKind
  | vFalse : FalsyKind
  | vZero : FalsyKind
  | vEmptyStr : FalsyKind
deriving DecidableEq, Repr

/-- An entry of the provider list passed to `Injector.create`: a falsy value,
a nested array, a bare function/class (rejected), an object with a `provide`
property, a truthy object without one, or a truthy primitive. -/
inductive ProviderEntry where
  | falsy : FalsyKind → ProviderEntry
  | arr : List ProviderEntry → ProviderEntry
  | func : Nat → ProviderEntry
  | objWithProvide : ProviderDesc → ProviderEntry
  | objNoProvide : ProviderEntry
  | prim : ProviderEntry

/-- Fold one annotation into the running `(options, token)` pair of
`computeDeps`: `Optional` sets `OPT_OPTIONAL`, `SkipSelf` clears
`OPT_CHECK_SELF` (`options & ~OPT_CHECK_SELF`, which on the reachable values
`0..7` is `&&& 5`), `Self` clears `OPT_CHECK_PARENT` (`&&& 3`), `Inject` and
any other entry replace the token. -/
def depAnnStep : Nat × Option Token → DepAnn → Nat × Option Token
  | (o, t), DepAnn.optional => (o ||| OPT_OPTIONAL, t)
  | (o, t), DepAnn.skipSelf => (o &&& 5, t)
  | (o, t), DepAnn.self => (o &&& 3, t)
  | (o, _), DepAnn.inject tk => (o, some tk)
  | (o, _), DepAnn.other tk => (o, some tk)

/-- Normalize one `deps` entry into a `DependencyRecord` (`computeDeps` loop
body).  When an annotation array supplies no underlying token, the token is
the array object itself. -/
def depEntryRec : DepEntry → DependencyRecord
  | DepEntry.plain t => { id := getId t, token := t, options := OPT_DEFAULT }
  | DepEntry.annotated tag anns =>
    let p := anns.foldl depAnnStep (OPT_DEFAULT, none)
    let t := p.2.getD (Token.arrObj tag)
    { id := getId t, token := t, options := p.1 }

/-- Context string handed to `staticError` for a provider description (the
source renders the description object through `stringify`; rendering detail
is out of scope, only the error tag matters to the engine's contracts). -/
def descContext (d : ProviderDesc) : String := "provide:" ++ stringify d.provide

/-- Model of `computeDeps(provider)`: an explicit non-empty `deps` array is
normalized entry-wise; otherwise a `useExisting` provider synthesizes a
single default-option dependency on the aliased token; otherwise a provider
with an absent `deps` property that is not a `useValue` provider fails with
the `'deps' required` error. -/
def computeDeps (d : ProviderDesc) : Except JsError (List DependencyRecord) :=
  match d.deps with
  | some ds =>
    if ds.length == 0 then
      match d.useExisting with
      | some t => Except.ok [{ id := getId t, token := t, options := OPT_DEFAULT }]
      | none => Except.ok []
    else Except.ok (ds.map depEntryRec)
  | none =>
    match d.useExisting with
    | some t => Except.ok [{ id := getId t, token := t, options := OPT_DEFAULT }]
    | none =>
      if d.useValue.isSome then Except.ok []
      else Except.error (staticError ErrTag.depsRequired "'deps' required" (descContext d))

/-- The `typeof provide == 'function'` fallback of `resolveProvider`:
a function-like token doubles as the construction function. -/
def provideFn : Token → Option RecFn
  | Token.injector => some RecFn.injectorCtor
  | Token.ref true n => some (RecFn.user n)
  | _ => none

/-- Model of `resolveProvider(provider)`: compute the dependency list, then
pick the recipe by key presence in the source's priority order
(`useValue`, `useFactory`, `useExisting`, `useClass`, callable `provide`),
failing with the invalid-provider error when nothing matches.  A `useValue`
provider's slot starts out already resolved. -/
def resolveProvider (d : ProviderDesc) : Except JsError Record :=
  match computeDeps d with
  | Except.error e => Except.error e
  | Except.ok deps =>
    match d.useValue with
    | some v =>
      Except.ok { token := d.provide, fn := RecFn.ident, useNew := false, deps := deps
                  value := Slot.resolved v }
    | none =>
      match d.useFactory with
      | some i =>
        Except.ok { token := d.provide, fn := RecFn.user i, useNew := false, deps := deps
                    value := Slot.empty }
      | none =>
        match d.useExisting with
        | some _ =>
          Except.ok { token := d.provide, fn := RecFn.ident, useNew := false, deps := deps
                      value := Slot.empty }
        | none =>
          match d.useCls with
          | some i =>
            Except.ok { token := d.provide, fn := RecFn.user i, useNew := true, deps := deps
                        value := Slot.empty }
          | none =>
            match provideFn d.provide with
            | some fn =>
              Except.ok { token := d.provide, fn := fn, useNew := true, deps := deps
                          value := Slot.empty }
            | none =>
              Except.error (staticError ErrTag.invalidProvider
                "StaticProvider does not have [useValue|useFactory|useExisting|useClass] or [provide] is not newable"
                (descContext d))

/-- The `Cannot mix multi providers and regular providers` error. -/
def multiProviderMixError (t : Token) : JsError :=
  staticError ErrTag.mixedMulti "Cannot mix multi providers and regular providers" (stringify t)

/-- Process one provider description into the registry: the body of the
`PROVIDE in provider` branch of `recursivelyProcessProviders`.  A multi
provider first finds or creates the `MULTI_PROVIDER_FN` placeholder under the
token's id (failing when a regular record occupies it), appends a munged-id
dependency to the placeholder, and retargets the write to the munged id;
then any write rejects a key occupied by a `MULTI_PROVIDER_FN` record and
otherwise overwrites (last write wins). -/
def processDesc (recs : Records) (d : ProviderDesc) : Except JsError Records :=
  let token := d.provide
  let id0 := getId token
  match resolveProvider d with
  | Except.error e => Except.error e
  | Except.ok rp =>
    let step : Except JsError (Records × RKey) :=
      if d.multi then
        match alook recs id0 with
        | some mp =>
          if mp.fn = RecFn.multiFn then
            let munged := RKey.munged mp.deps.length id0
            Except.ok (aset recs id0
              { mp with deps := mp.deps ++ [{ id := munged, token := token, options := OPT_DEFAULT }] },
              munged)
          else Except.error (multiProviderMixError token)
        | none =>
          let munged := RKey.munged 0 id0
          Except.ok (aset recs id0
            { token := token, deps := [{ id := munged, token := token, options := OPT_DEFAULT }]
              useNew := false, fn := RecFn.multiFn, value := Slot.empty },
            munged)
      else Except.ok (recs, id0)
    match step with
    | Except.error e => Except.error e
    | Except.ok (recs1, id1) =>
      match alook recs1 id1 with
      | some r =>
        if r.fn = RecFn.multiFn then Except.error (multiProviderMixError token)
        else Except.ok (aset recs1 id1 rp)
      | none => Except.ok (aset recs1 id1 rp)

/-- Model of `recursivelyProcessProviders(records, provider)`: skip falsy
entries, recurse into arrays, reject bare functions and anything that is not
an object with a `provide` property, and process descriptions through
`processDesc`. -/
def recursivelyProcessProviders : Records → ProviderEntry → Except JsError Records
  | recs, ProviderEntry.falsy _ => Except.ok recs
  | recs, ProviderEntry.arr ps => rppList recs ps
  | _, ProviderEntry.func _ =>
    Except.error (staticError ErrTag.functionNotSupported "Function/Class not supported" "function")
  | recs, ProviderEntry.objWithProvide d => processDesc recs d
  | _, ProviderEntry.objNoProvide =>
    Except.error (staticError ErrTag.unexpectedProvider "Unexpected provider" "object")
  | _, ProviderEntry.prim =>
    Except.error (staticError ErrTag.unexpectedProvider "Unexpected provider" "primitive")
where rppList : Records → List ProviderEntry → Except JsError Records
  | recs, [] => Except.ok recs
  | recs, p :: t =>
    match recursivelyProcessProviders recs p with
    | Except.ok recs' => rppList recs' t
    | Except.error e => Except.error e

/-- The self-referential record seeded by the `StaticInjector` constructor:
`records[getId(Injector)] = {token: Injector, fn: IDENT, deps: EMPTY,
value: this, useNew: false}`. -/
def seedRecord (sid : Nat) : Record :=
  { token := Token.injector, fn := RecFn.ident, useNew := false, deps := []
    value := Slot.resolved (Value.injRef sid) }

/-- Registry construction of the `StaticInjector` constructor for a scope
with id `sid`: seed the self record, then process the provider list (the
top-level list is itself an array entry in the source call). -/
def buildRecords (sid : Nat) (providers : List ProviderEntry) : Except JsError Records :=
  recursivelyProcessProviders [(getId Token.injector, seedRecord sid)]
    (ProviderEntry.arr providers)

/-- Extract the error tag of a failed computation (`none` on success). -/
def errTagOf {α : Type} : Except JsError α → Option ErrTag
  | Except.error e => some e.tag
  | Except.ok _ => none

/-- Registry of a successful build (empty registry on a failed build); lets
concrete examples name the built registry. -/
def builtRecs (sid : Nat) (providers : List ProviderEntry) : Records :=
  match buildRecords sid providers with
  | Except.ok r => r
  | Except.error _ => []

/-- High-level `scope.get(token, notFoundValue)` entry point. -/
def injectorGet (env : FnEnv) (fuel : Nat) (sc : Scope) (st : St) (token : Token)
    (nf : NotFound) : Except JsError Value × St :=
  match run env fuel (CallK.getC sc token nf) st with
  | (Except.ok (RVal.one v), st') => (Except.ok v, st')
  | (Except.ok (RVal.many _), st') => (Except.error internalErr, st')
  | (Except.error e, st') => (Except.error e, st')

/-- Observation of the static part of a record (everything except the value
slot): registry construction fixes this part, resolution only writes slots. -/
def statAt (st : St) (a : Nat) (b : RKey) :
    Option (Token × RecFn × Bool × List DependencyRecord) :=
  (alook (stRecs st a) b).map (fun r => (r.token, r.fn, r.useNew, r.deps))

/-- Observation of the value slot of record `b` in scope `a`. -/
def slotAt (st : St) (a : Nat) (b : RKey) : Option Slot :=
  (alook (stRecs st a) b).map Record.value

/-- No record anywhere in the store is marked with the `CIRCULAR` in-progress
sentinel. -/
def noCirc (st : St) : Prop := ∀ a b, slotAt st a b ≠ some Slot.circular

/-- Decidable check behind `noCirc` for concrete stores. -/
def noCircB (st : St) : Bool :=
  st.store.all fun p => p.2.all fun q =>
    match q.2.value with
    | Slot.circular => false
    | _ => true

/-- Result of `_NullInjector.get(token, notFoundValue)`. -/
def nullRes (token : Token) (nf : NotFound) : Except JsError RVal :=
  match nf with
  | NotFound.throwIfNotFound => Except.error (noProviderErr token)
  | NotFound.value Value.undef => Except.error (noProviderErr token)
  | NotFound.value v => Except.ok (RVal.one v)

/-- Environment where every user function returns its first argument
(dependency-observing factories for the concrete scenarios). -/
def envFirstArg : FnEnv := fun _ _ args => Except.ok (args.headD Value.undef)

/-- Freshly created store holding the given registries under scope ids
`0, 1, ...` in list order. -/
def mkSt (entries : List (Nat × Records)) : St := { store := entries, fresh := 0, calls := [] }

/-- Scenario token `A` (the token whose provider declares the dependency
under scrutiny). -/
def tokA : Token := Token.str "A"

/-- Scenario token `B` (the dependency token). -/
def tokB : Token := Token.str "B"

/-- Scenario token used for multi providers. -/
def tokM : Token := Token.str "M"

/-- Scenario token for class providers. -/
def tokC : Token := Token.str "C"

/-- Value provider description for `tokB`. -/
def descValB (v : Value) : ProviderEntry :=
  ProviderEntry.objWithProvide { provide := tokB, useValue := some v }

/-- Factory provider description for `tokA` with a single dependency entry
(user function `0` — `envFirstArg` makes it return the dependency value). -/
def descFacA (e : DepEntry) : ProviderEntry :=
  ProviderEntry.objWithProvide { provide := tokA, useFactory := some 0, deps := some [e] }

/-- Parent registry for the modifier scenarios: provides `tokB`. -/
def parentRecs (w : Value) : Records := builtRecs 0 [descValB w]

/-- Child registry with a local `tokB` and the `tokA` factory. -/
def childRecs (v : Value) (e : DepEntry) : Records := builtRecs 1 [descValB v, descFacA e]

/-- Child registry with only the `tokA` factory (no local `tokB`). -/
def childRecsNoB (e : DepEntry) : Records := builtRecs 1 [descFacA e]

/-- Two-level scope chain: scope `1` (child) below scope `0` (parent) below
the null injector. -/
def chainScope : Scope := Scope.node 1 (Scope.node 0 Scope.null)

/-- `get(tokA)` on the child of the two-scope chain. -/
def chainGet (env : FnEnv) (pr cr : Records) : Except JsError Value × St :=
  injectorGet env 10 chainScope (mkSt [(0, pr), (1, cr)]) tokA (NotFound.value Value.undef)

/-- The `deps` entry `[new Self(), tokB]`. -/
def selfDepB : DepEntry := DepEntry.annotated 0 [DepAnn.self, DepAnn.other tokB]

/-- The `deps` entry `[new SkipSelf(), tokB]`. -/
def skipSelfDepB : DepEntry := DepEntry.annotated 0 [DepAnn.skipSelf, DepAnn.other tokB]

/-- The `deps` entry `[new Optional(), tokB]`. -/
def optionalDepB : DepEntry := DepEntry.annotated 0 [DepAnn.optional, DepAnn.other tokB]

/-- Registry of a single scope that provides `tokA` through a factory whose
only dependency is the given entry; `tokB` has no provider anywhere. -/
def soloRecs (e : DepEntry) : Records := builtRecs 0 [descFacA e]

/-- `get(tokA)` on a single root scope with the given registry. -/
def soloGet (env : FnEnv) (recs : Records) : Except JsError Value × St :=
  injectorGet env 10 (Scope.node 0 Scope.null) (mkSt [(0, recs)]) tokA (NotFound.value Value.undef)

/-- Multi-provider description `{provide: tokM, useValue: v, multi: true}`. -/
def mdesc (v : Value) : ProviderEntry :=
  ProviderEntry.objWithProvide { provide := tokM, useValue := some v, multi := true }

/-- Registry key of `tokM`. -/
def kM : RKey := getId tokM

/-- The munged-id dependency appended to the multi placeholder for the `i`-th
contribution. -/
def mdep (i : Nat) : DependencyRecord :=
  { id := RKey.munged i kM, token := tokM, options := OPT_DEFAULT }

/-- Dependency list of the multi placeholder: `m` munged entries starting at
index `k`. -/
def mdeps : Nat → Nat → List DependencyRecord
  | _, 0 => []
  | k, Nat.succ m => mdep k :: mdeps (k + 1) m

/-- The normalized record of one multi contribution `useValue: v`. -/
def mval (v : Value) : Record :=
  { token := tokM, fn := RecFn.ident, useNew := false, deps := [], value := Slot.resolved v }

/-- The multi placeholder record with `m` collected dependencies and the
given value slot. -/
def mph (m : Nat) (s : Slot) : Record :=
  { token := tokM, fn := RecFn.multiFn, useNew := false, deps := mdeps 0 m, value := s }

/-- The munged-id constituent records for the contributions `pre`, starting
at index `k`. -/
def ments : Nat → List Value → Records
  | _, [] => []
  | k, v :: t => (RKey.munged k kM, mval v) :: ments (k + 1) t

/-- Registry after processing the multi contributions `pre` (placeholder slot
`s` — `EMPTY` right after construction, `CIRCULAR` while resolving). -/
def multiState (pre : List Value) (s : Slot) : Records :=
  (getId Token.injector, seedRecord 0) :: (kM, mph pre.length s) :: ments 0 pre

/-- Provider list contributing `vs` to `tokM`, one description per value, in
order. -/
def multiProvs (vs : List Value) : List ProviderEntry := vs.map mdesc

/-- Class provider scenario: `{provide: tokC, useClass: 3, deps: [tokA]}`
together with `{provide: tokA, useValue: va}`. -/
def clsProvs (va : Value) : List ProviderEntry :=
  [ProviderEntry.objWithProvide { provide := tokA, useValue := some va },
   ProviderEntry.objWithProvide { provide := tokC, useCls := some 3, deps := some [DepEntry.plain tokA] }]

/-- `get(tokC)` on a root scope built from `clsProvs`. -/
def clsGet (env : FnEnv) (va : Value) : Except JsError Value × St :=
  injectorGet env 10 (Scope.node 0 Scope.null) (mkSt [(0, builtRecs 0 (clsProvs va))]) tokC
    (NotFound.value Value.undef)

/-- Cycle registry: the slot of record `j` given the window `[lo, hi)` of
in-progress records. -/
def cycSlot (lo hi j : Nat) : Slot :=
  if lo ≤ j ∧ j < hi then Slot.circular else Slot.empty

/-- Dependency of cycle record `j`: the next token `(j + 1) % n`. -/
def cycDep (n j : Nat) : DependencyRecord :=
  { id := getId (Token.num (Int.ofNat ((j + 1) % n)))
    token := Token.num (Int.ofNat ((j + 1) % n))
    options := OPT_DEFAULT }

/-- Cycle record `j` of the `n`-cycle (a `useExisting`-style record whose
single dependency is the next token in the cycle). -/
def cycRec (n j : Nat) (s : Slot) : Record :=
  { token := Token.num (Int.ofNat j), fn := RecFn.ident, useNew := false
    deps := [cycDep n j], value := s }

/-- Registry of the `n`-cycle with records in `[lo, hi)` marked in-progress:
token `i` depends on token `(i + 1) % n` for every `i < n`. -/
def cycRecs (n lo hi : Nat) : Records :=
  (List.range n).map fun (j : Nat) => (getId (Token.num (Int.ofNat j)), cycRec n j (cycSlot lo hi j))

/-- Store holding the `n`-cycle registry as scope `0`. -/
def mkCycSt (n lo hi : Nat) : St := mkSt [(0, cycRecs n lo hi)]

/-- Accumulated token path when the circular failure reaches frame `j`:
tokens `j % n, (j+1) % n, ..., n % n`. -/
def cycPath (n j : Nat) : List Token :=
  (List.range (n - j + 1)).map fun (i : Nat) => Token.num (Int.ofNat ((j + i) % n))

/-- The circular-dependency error as it exits frame `j` of the `n`-cycle. -/
def cycErr (n j : Nat) : JsError :=
  { tag := ErrTag.circular, msg := "Circular dependency", noNewLine := true
    tempPath := some (cycPath n j), tokenPath := none }

/-- A provider tree never registers the `Injector` token itself. -/
def noInjP : ProviderEntry → Bool
  | ProviderEntry.objWithProvide d => decide (d.provide ≠ Token.injector)
  | ProviderEntry.arr ps => noInjL ps
  | _ => true
where noInjL : List ProviderEntry → Bool
  | [] => true
  | p :: t => noInjP p && noInjL t

/-- Provider list that overrides the injector's self token with a plain
value (the C4 counterexample input). -/
def overrideProvs : List ProviderEntry :=
  [ProviderEntry.objWithProvide { provide := Token.injector, useValue := some (Value.num 42) }]

/-- Concrete run for the C1 witness: a parent provides `tokB = 7`, the child
resolves `tokA` through a factory depending on `tokB`. -/
def c1wRes : Except JsError Value × St :=
  chainGet envFirstArg (parentRecs (Value.num 7)) (childRecsNoB (DepEntry.plain tokB))

/-- Concrete failing run for the C3 witness: a self-dependent token. -/
def c3wRes : Except JsError Value × St :=
  injectorGet envFirstArg 9 (Scope.node 0 Scope.null) (mkCycSt 1 0 0) (Token.num 0)
    NotFound.throwIfNotFound

/-- The error of the concrete failing run (C3 witness). -/
def c3wErr : JsError :=
  match c3wRes.1 with
  | Except.error e => e
  | Except.ok _ => fuelErr

/-- Environment whose class bodies return `undefined` (C9 witness). -/
def envUndef : FnEnv := fun _ _ _ => Except.ok Value.undef

/-- Environment whose class bodies return the number `5` (C9 witness). -/
def envNum5 : FnEnv := fun _ _ _ => Except.ok (Value.num 5)

/-- Updating a key makes it readable. -/
theorem alook_aset_self {κ : Type} [DecidableEq κ] {α : Type} (l : List (κ × α)) (k : κ) (r : α) :
    alook (aset l k r) k = some r := by
  induction l with
  | nil => simp [aset, alook]
  | cons h t ih =>
    rcases h with ⟨k', r'⟩
    by_cases hk : k' = k
    · subst hk; simp [aset, alook]
    · simp [aset, alook, hk, ih]

/-- Updating one key leaves every other key unchanged. -/
theorem alook_aset_ne {κ : Type} [DecidableEq κ] {α : Type} (l : List (κ × α)) (k q : κ) (r : α)
    (h : q ≠ k) : alook (aset l k r) q = alook l q := by
  induction l with
  | nil => simp [aset, alook, Ne.symm h]
  | cons hd t ih =>
    rcases hd with ⟨k', r'⟩
    by_cases hk : k' = k
    · subst hk
      simp only [aset, if_pos rfl, alook]
      rw [if_neg (Ne.symm h), if_neg (Ne.symm h)]
    · simp only [aset, if_neg hk, alook]
      by_cases hq : k' = q
      · simp [hq]
      · simp [hq, ih]

/-- A successful lookup comes from a list member. -/
theorem alook_mem {κ : Type} [DecidableEq κ] {α : Type} (l : List (κ × α)) (k : κ) (v : α)
    (h : alook l k = some v) : (k, v) ∈ l := by
  induction l with
  | nil => simp [alook] at h
  | cons hd t ih =>
    rcases hd with ⟨k', r'⟩
    simp only [alook] at h
    by_cases hk : k' = k
    · rw [if_pos hk] at h
      injection h with h2
      subst hk; subst h2
      exact List.mem_cons_self _ _
    · rw [if_neg hk] at h
      exact List.mem_cons_of_mem _ (ih h)

/-- An absent key is appended at the end by `aset`. -/
theorem aset_of_alook_none {κ : Type} [DecidableEq κ] {α : Type} (l : List (κ × α)) (k : κ)
    (r : α) (h : alook l k = none) : aset l k r = l ++ [(k, r)] := by
  induction l with
  | nil => rfl
  | cons hd t ih =>
    rcases hd with ⟨k', r'⟩
    by_cases hk : k' = k
    · subst hk; simp [alook] at h
    · simp only [alook, if_neg hk] at h
      simp [aset, hk, ih h]

/-- Writing an absent slot is a no-op. -/
theorem setSlot_none (st : St) (sid : Nat) (k : RKey) (s : Slot)
    (h : alook (stRecs st sid) k = none) : setSlot st sid k s = st := by
  simp only [setSlot, h]

/-- Store shape of a successful slot write. -/
theorem setSlot_store (st : St) (sid : Nat) (k : RKey) (s : Slot) (r : Record)
    (h : alook (stRecs st sid) k = some r) :
    (setSlot st sid k s).store
      = aset st.store sid (aset (stRecs st sid) k { r with value := s }) := by
  simp only [setSlot, h]

/-- The registry of the written scope after a successful slot write. -/
theorem stRecs_setSlot_self (st : St) (sid : Nat) (k : RKey) (s : Slot) (r : Record)
    (h : alook (stRecs st sid) k = some r) :
    stRecs (setSlot st sid k s) sid = aset (stRecs st sid) k { r with value := s } := by
  show (alook (setSlot st sid k s).store sid).getD [] = _
  rw [setSlot_store st sid k s r h, alook_aset_self]
  rfl

/-- Registries of other scopes are untouched by a slot write. -/
theorem stRecs_setSlot_ne (st : St) (sid : Nat) (k : RKey) (s : Slot) (a : Nat)
    (ha : a ≠ sid) : stRecs (setSlot st sid k s) a = stRecs st a := by
  cases h : alook (stRecs st sid) k with
  | none => rw [setSlot_none st sid k s h]
  | some r =>
    show (alook (setSlot st sid k s).store a).getD [] = _
    rw [setSlot_store st sid k s r h, alook_aset_ne _ _ _ _ ha]
    rfl

/-- Writing a value slot does not change the static part of any record. -/
theorem statAt_setSlot (st : St) (sid : Nat) (k : RKey) (s : Slot) (a : Nat) (b : RKey) :
    statAt (setSlot st sid k s) a b = statAt st a b := by
  cases h : alook (stRecs st sid) k with
  | none => rw [setSlot_none st sid k s h]
  | some r =>
    by_cases ha : a = sid
    · subst ha
      show (alook (stRecs (setSlot st a k s) a) b).map _ = (alook (stRecs st a) b).map _
      rw [stRecs_setSlot_self st a k s r h]
      by_cases hb : b = k
      · subst hb
        rw [alook_aset_self, h]
        rfl
      · rw [alook_aset_ne _ _ _ _ hb]
    · show (alook (stRecs (setSlot st sid k s) a) b).map _ = (alook (stRecs st a) b).map _
      rw [stRecs_setSlot_ne st sid k s a ha]

/-- Writing a value slot at a present key makes that slot readable. -/
theorem slotAt_setSlot_self (st : St) (sid : Nat) (k : RKey) (s : Slot) (r : Record)
    (h : alook (stRecs st sid) k = some r) : slotAt (setSlot st sid k s) sid k = some s := by
  show (alook (stRecs (setSlot st sid k s) sid) k).map _ = _
  rw [stRecs_setSlot_self st sid k s r h, alook_aset_self]
  rfl

/-- Writing a value slot leaves every other slot unchanged. -/
theorem slotAt_setSlot_ne (st : St) (sid : Nat) (k : RKey) (s : Slot) (a : Nat) (b : RKey)
    (h : a ≠ sid ∨ b ≠ k) : slotAt (setSlot st sid k s) a b = slotAt st a b := by
  cases hk : alook (stRecs st sid) k with
  | none => rw [setSlot_none st sid k s hk]
  | some r =>
    by_cases ha : a = sid
    · subst ha
      rcases h with h | h
      · exact absurd rfl h
      · show (alook (stRecs (setSlot st a k s) a) b).map _ = (alook (stRecs st a) b).map _
        rw [stRecs_setSlot_self st a k s r hk, alook_aset_ne _ _ _ _ h]
    · show (alook (stRecs (setSlot st sid k s) a) b).map _ = (alook (stRecs st a) b).map _
      rw [stRecs_setSlot_ne st sid k s a ha]

/-- `applyFn` only touches the fresh counter and the invocation log. -/
theorem applyFn_store (env : FnEnv) (st : St) (fn : RecFn) (un : Bool) (args : List Value) :
    (applyFn env st fn un args).2.store = st.store := by
  unfold applyFn
  cases fn <;> cases un <;> simp <;> rcases env _ _ args with m | v <;> simp

/-- The static observation only reads the store. -/
theorem statAt_congr (st st' : St) (h : st.store = st'.store) (a : Nat) (b : RKey) :
    statAt st a b = statAt st' a b := by
  show (alook ((alook st.store a).getD []) b).map _ = (alook ((alook st'.store a).getD []) b).map _
  rw [h]

/-- The slot observation only reads the store. -/
theorem slotAt_congr (st st' : St) (h : st.store = st'.store) (a : Nat) (b : RKey) :
    slotAt st a b = slotAt st' a b := by
  show (alook ((alook st.store a).getD []) b).map _ = (alook ((alook st'.store a).getD []) b).map _
  rw [h]

/-- Resolution never changes the shape of any registry: scope membership and
the static part of every record (token, construction function, `useNew` flag,
dependency list) are exactly as built; only value slots, the fresh-object
counter and the invocation log evolve. -/
theorem run_statics (env : FnEnv) :
    ∀ (f : Nat) (c : CallK) (st : St) (a : Nat) (b : RKey),
      statAt (run env f c st).2 a b = statAt st a b := by
  intro f
  induction f with
  | zero => intro c st a b; rfl
  | succ f ih =>
    intro c st a b
    have key : ∀ (c' : CallK) (st0 : St) (r : Except JsError RVal) (st' : St),
        run env f c' st0 = (r, st') → statAt st' a b = statAt st0 a b := by
      intro c' st0 r st' heq
      have h2 := ih c' st0 a b
      rw [heq] at h2
      exact h2
    cases c with
    | getC sc token nf =>
      cases sc with
      | null =>
        cases nf with
        | throwIfNotFound => rfl
        | value v => cases v <;> rfl
      | node sid parent =>
        simp only [run]
        split <;> rename_i heq <;> exact key _ _ _ _ heq
    | tryC sid parent token rid nf =>
      simp only [run]
      split <;> rename_i heq
      · exact key _ _ _ _ heq
      · split
        · split
          · split
            · rw [statAt_setSlot]
              exact key _ _ _ _ heq
            · exact key _ _ _ _ heq
          · exact key _ _ _ _ heq
        · exact key _ _ _ _ heq
    | resC sid parent token rid nf =>
      simp only [run]
      split
      · exact ih _ st a b
      · split
        · exact ih _ st a b
        · rename_i k r hrec
          split
          · rfl
          · rfl
          · split <;> rename_i heq
            · exact (key _ _ _ _ heq).trans (statAt_setSlot ..)
            · exact (key _ _ _ _ heq).trans (statAt_setSlot ..)
            · rename_i vs st2
              split <;> rename_i heqA
              · have hst := applyFn_store env st2 r.fn r.useNew vs
                rw [heqA] at hst
                refine (statAt_congr _ _ hst a b).trans ?_
                exact (key _ _ _ _ heq).trans (statAt_setSlot ..)
              · have hst := applyFn_store env st2 r.fn r.useNew vs
                rw [heqA] at hst
                rw [statAt_setSlot]
                refine (statAt_congr _ _ hst a b).trans ?_
                exact (key _ _ _ _ heq).trans (statAt_setSlot ..)
    | depsC sid parent ds =>
      cases ds with
      | nil => rfl
      | cons d rest =>
        simp only [run]
        split <;> rename_i heq
        · exact key _ _ _ _ heq
        · exact key _ _ _ _ heq
        · rename_i v st1
          split <;> rename_i heq2 <;>
            exact (key _ _ _ _ heq2).trans (key _ _ _ _ heq)

/-- Out of fuel: the interpreter stops without touching the state. -/
theorem run_zero (env : FnEnv) (c : CallK) (st : St) :
    run env 0 c st = (Except.error fuelErr, st) := rfl

/-- `tryResolveToken` passes a successful `resolveToken` result through. -/
theorem run_tryC_ok (env : FnEnv) (f sid : Nat) (parent : Scope) (t : Token) (rid : Option RKey)
    (nf : NotFound) (st st2 : St) (rv : RVal)
    (h : run env f (CallK.resC sid parent t rid nf) st = (Except.ok rv, st2)) :
    run env (f + 1) (CallK.tryC sid parent t rid nf) st = (Except.ok rv, st2) := by
  simp only [run, h]

/-- `resolveToken` without a record delegates to the parent scope. -/
theorem run_resC_none (env : FnEnv) (f sid : Nat) (parent : Scope) (t : Token) (nf : NotFound)
    (st : St) :
    run env (f + 1) (CallK.resC sid parent t none nf) st
      = run env f (CallK.getC parent t nf) st := by
  simp only [run]

/-- `resolveToken` on an already-resolved slot returns the memoized value
immediately, without touching the state. -/
theorem run_resC_resolved (env : FnEnv) (f sid : Nat) (parent : Scope) (t : Token) (k : RKey)
    (nf : NotFound) (st : St) (r : Record) (v : Value)
    (hrec : alook (stRecs st sid) k = some r) (hv : r.value = Slot.resolved v) :
    run env (f + 1) (CallK.resC sid parent t (some k) nf) st = (Except.ok (RVal.one v), st) := by
  simp only [run, hrec, hv]

/-- `_NullInjector.get` ignores and preserves the state. -/
theorem run_getC_null (env : FnEnv) (f : Nat) (t : Token) (nf : NotFound) (st : St) :
    run env (f + 1) (CallK.getC Scope.null t nf) st = (nullRes t nf, st) := by
  cases nf with
  | throwIfNotFound => rfl
  | value w => cases w <;> rfl

/-- Forward computation of `StaticInjector.get` on a successful
`tryResolveToken`. -/
theorem run_getC_node_ok (env : FnEnv) (f sid : Nat) (parent : Scope) (t : Token)
    (nf : NotFound) (st st2 : St) (rv : RVal) (rid : Option RKey)
    (hrid : (if (alook (stRecs st sid) (getId t)).isSome then some (getId t) else none) = rid)
    (h : run env f (CallK.tryC sid parent t rid nf) st = (Except.ok rv, st2)) :
    run env (f + 1) (CallK.getC (Scope.node sid parent) t nf) st = (Except.ok rv, st2) := by
  simp only [run, hrid, h]

/-- Inversion of a successful `StaticInjector.get`: the inner
`tryResolveToken` succeeded with the same value and state. -/
theorem run_getC_node_inv (env : FnEnv) (f sid : Nat) (parent : Scope) (t : Token)
    (nf : NotFound) (st st2 : St) (rv : RVal) (rid : Option RKey)
    (hrid : (if (alook (stRecs st sid) (getId t)).isSome then some (getId t) else none) = rid)
    (h : run env (f + 1) (CallK.getC (Scope.node sid parent) t nf) st = (Except.ok rv, st2)) :
    run env f (CallK.tryC sid parent t rid nf) st = (Except.ok rv, st2) := by
  simp only [run, hrid] at h
  split at h
  · rename_i heq
    exact heq.trans h
  · simp at h

/-- Inversion of a successful `tryResolveToken`: the inner `resolveToken`
succeeded with the same value and state. -/
theorem run_tryC_ok_inv (env : FnEnv) (f sid : Nat) (parent : Scope) (t : Token)
    (rid : Option RKey) (nf : NotFound) (st st2 : St) (rv : RVal)
    (h : run env (f + 1) (CallK.tryC sid parent t rid nf) st = (Except.ok rv, st2)) :
    run env f (CallK.resC sid parent t rid nf) st = (Except.ok rv, st2) := by
  simp only [run] at h
  split at h
  · rename_i heq
    exact heq.trans h
  · simp at h

/-- Inversion of a successful `resolveToken` on an unresolved slot: the
dependency loop and the construction function both succeeded, and the result
was memoized into the slot. -/
theorem run_resC_empty_inv (env : FnEnv) (f sid : Nat) (parent : Scope) (t : Token) (k : RKey)
    (nf : NotFound) (st st2 : St) (rv : RVal) (r : Record)
    (hrec : alook (stRecs st sid) k = some r) (hv : r.value = Slot.empty)
    (h : run env (f + 1) (CallK.resC sid parent t (some k) nf) st = (Except.ok rv, st2)) :
    ∃ vs stm w st3,
      run env f (CallK.depsC sid parent r.deps) (setSlot st sid k Slot.circular)
        = (Except.ok (RVal.many vs), stm)
      ∧ applyFn env stm r.fn r.useNew vs = (Except.ok w, st3)
      ∧ rv = RVal.one w ∧ st2 = setSlot st3 sid k (Slot.resolved w) := by
  simp only [run, hrec, hv] at h
  split at h
  · simp at h
  · simp at h
  · rename_i vs stm hdeps
    split at h
    · simp at h
    · rename_i w st3 happ
      injection h with h1 h2
      injection h1 with h1
      exact ⟨vs, stm, w, st3, hdeps, happ, h1.symm, h2.symm⟩

/-- Claim C1 engine lemma: once a `get` has succeeded, repeating the same
`get` on the resulting state returns the identical value and leaves the state
untouched — in particular no construction function runs again (the invocation
log inside `St` is unchanged) and no value slot changes. -/
theorem run_get_memo (env : FnEnv) :
    ∀ (f : Nat) (sc : Scope) (st : St) (t : Token) (nf : NotFound) (v : Value) (st' : St),
      run env f (CallK.getC sc t nf) st = (Except.ok (RVal.one v), st') →
      run env f (CallK.getC sc t nf) st' = (Except.ok (RVal.one v), st') := by
  intro f
  induction f using Nat.strong_induction_on with
  | _ f ihs =>
    intro sc st t nf v st' h
    have h0 := h
    cases f with
    | zero => rw [run_zero] at h; simp at h
    | succ f0 =>
      cases sc with
      | null =>
        rw [run_getC_null] at h
        rw [run_getC_null]
        have h1 : nullRes t nf = Except.ok (RVal.one v) := congrArg Prod.fst h
        rw [h1]
      | node sid parent =>
        have hstat : ∀ a b, statAt st' a b = statAt st a b := by
          intro a b
          have hh := run_statics env (f0 + 1) (CallK.getC (Scope.node sid parent) t nf) st a b
          rw [h0] at hh
          exact hh
        cases halo : alook (stRecs st sid) (getId t) with
        | none =>
          have hrid : (if (alook (stRecs st sid) (getId t)).isSome then some (getId t) else none)
              = (none : Option RKey) := by rw [halo]; rfl
          have htry := run_getC_node_inv env f0 sid parent t nf st st' _ none hrid h
          cases f0 with
          | zero => rw [run_zero] at htry; simp at htry
          | succ f1 =>
            have hres := run_tryC_ok_inv env f1 sid parent t none nf st st' _ htry
            cases f1 with
            | zero => rw [run_zero] at hres; simp at hres
            | succ f2 =>
              rw [run_resC_none] at hres
              have hg := ihs f2 (by omega) parent st t nf v st' hres
              have halo' : alook (stRecs st' sid) (getId t) = none := by
                have hh := hstat sid (getId t)
                unfold statAt at hh
                rw [halo] at hh
                exact Option.map_eq_none'.mp hh
              have hrid' : (if (alook (stRecs st' sid) (getId t)).isSome then some (getId t)
                  else none) = (none : Option RKey) := by rw [halo']; rfl
              have g2 : run env (f2 + 1) (CallK.resC sid parent t none nf) st'
                  = (Except.ok (RVal.one v), st') := by rw [run_resC_none]; exact hg
              have g1 := run_tryC_ok env (f2 + 1) sid parent t none nf st' st' _ g2
              exact run_getC_node_ok env (f2 + 1 + 1) sid parent t nf st' st' _ none hrid' g1
        | some r =>
          have hrid : (if (alook (stRecs st sid) (getId t)).isSome then some (getId t) else none)
              = some (getId t) := by rw [halo]; rfl
          have htry := run_getC_node_inv env f0 sid parent t nf st st' _ (some (getId t)) hrid h
          cases f0 with
          | zero => rw [run_zero] at htry; simp at htry
          | succ f1 =>
            have hres := run_tryC_ok_inv env f1 sid parent t (some (getId t)) nf st st' _ htry
            cases f1 with
            | zero => rw [run_zero] at hres; simp at hres
            | succ f2 =>
              cases hv : r.value with
              | resolved w =>
                have hfwd := run_resC_resolved env f2 sid parent t (getId t) nf st r w halo hv
                have hcomb := hfwd.symm.trans hres
                have hw : w = v := by
                  have := congrArg Prod.fst hcomb
                  simpa using this
                have hstq : st = st' := congrArg Prod.snd hcomb
                subst hw
                rw [← hstq]
                rw [← hstq] at h0
                exact h0
              | circular =>
                have hfwd : run env (f2 + 1) (CallK.resC sid parent t (some (getId t)) nf) st
                    = (Except.error circularErr, st) := by simp only [run, halo, hv]
                rw [hfwd] at hres
                simp at hres
              | empty =>
                obtain ⟨vs, stm, w, st3, hdeps, happ, hrv, hst2⟩ :=
                  run_resC_empty_inv env f2 sid parent t (getId t) nf st st' _ r halo hv hres
                have hw : w = v := by injection hrv.symm
                subst hw
                have s1 : statAt stm sid (getId t)
                    = statAt (setSlot st sid (getId t) Slot.circular) sid (getId t) := by
                  have hh := run_statics env f2 (CallK.depsC sid parent r.deps)
                    (setSlot st sid (getId t) Slot.circular) sid (getId t)
                  rw [hdeps] at hh
                  exact hh
                have s2 := statAt_setSlot st sid (getId t) Slot.circular sid (getId t)
                have hs3store : st3.store = stm.store := by
                  have hh := applyFn_store env stm r.fn r.useNew vs
                  rw [happ] at hh
                  exact hh
                have s3 := statAt_congr st3 stm hs3store sid (getId t)
                have sall : statAt st3 sid (getId t) = statAt st sid (getId t) :=
                  (s3.trans s1).trans s2
                have hpresent : ∃ r3, alook (stRecs st3 sid) (getId t) = some r3 := by
                  unfold statAt at sall
                  rw [halo] at sall
                  obtain ⟨r3, hr3, _⟩ := Option.map_eq_some'.mp sall
                  exact ⟨r3, hr3⟩
                obtain ⟨r3, hr3⟩ := hpresent
                have hslot' : slotAt st' sid (getId t) = some (Slot.resolved w) := by
                  rw [hst2]
                  exact slotAt_setSlot_self st3 sid (getId t) (Slot.resolved w) r3 hr3
                obtain ⟨r', hr', hv'⟩ := Option.map_eq_some'.mp hslot'
                have hrid' : (if (alook (stRecs st' sid) (getId t)).isSome
                    then some (getId t) else none) = some (getId t) := by rw [hr']; rfl
                have g2 := run_resC_resolved env f2 sid parent t (getId t) nf st' r' w hr' hv'
                have g1 := run_tryC_ok env (f2 + 1) sid parent t (some (getId t)) nf st' st' _ g2
                exact run_getC_node_ok env (f2 + 1 + 1) sid parent t nf st' st' _ (some (getId t))
                  hrid' g1

/-- Claim C1: on a fixed scope chain, once `get(token)` has resolved a token
to a value, the same `get` on the resulting state returns the identical value
(Lean equality of `Value`, which models JavaScript reference identity through
object ids) and the state is bit-for-bit unchanged: no slot transitions again
and the invocation log `St.calls` of user construction functions does not
grow, i.e. the record's recipe is not re-invoked.  The slot had transitioned
unresolved → in-progress → resolved during the first call and stays
`resolved` forever after. -/
theorem resolvedTokenMemoized (env : FnEnv) (f : Nat) (sc : Scope) (st : St) (t : Token)
    (nf : NotFound) (v : Value) (st' : St)
    (h : injectorGet env f sc st t nf = (Except.ok v, st')) :
    injectorGet env f sc st' t nf = (Except.ok v, st') := by
  unfold injectorGet at h ⊢
  split at h
  · rename_i w stx heq
    have hw : w = v := by have := congrArg Prod.fst h; simpa using this
    have hs : stx = st' := congrArg Prod.snd h
    rw [hw, hs] at heq
    have h2 := run_get_memo env f sc st t nf v st' heq
    simp only [h2]
  · simp at h
  · rename_i e stx heq
    simp at h

/-- Witness for C1: `tokB = 7` lives in the parent, the child's `tokA`
factory consumes it; the first `get` returns `7`, and repeating the `get` on
the resulting state returns `7` again with the state (invocation log
included) unchanged. -/
theorem resolvedTokenMemoizedWitness :
    chainGet envFirstArg (parentRecs (Value.num 7)) (childRecsNoB (DepEntry.plain tokB))
      = (Except.ok (Value.num 7), c1wRes.2)
    ∧ injectorGet envFirstArg 10 chainScope c1wRes.2 tokA (NotFound.value Value.undef)
      = (Except.ok (Value.num 7), c1wRes.2) :=
  ⟨rfl,
    resolvedTokenMemoized envFirstArg 10 chainScope
      (mkSt [(0, parentRecs (Value.num 7)), (1, childRecsNoB (DepEntry.plain tokB))])
      tokA (NotFound.value Value.undef) (Value.num 7) c1wRes.2 rfl⟩

/-- Claim C5: dependency lookup policy, for arbitrary provided values `v`
(child's `tokB`) and `w` (parent's `tokB`).  Without a modifier the own
registry is checked first: a local record wins (`v`), and only a missing
local record delegates to the parent, returning the parent's value (`w`).
With the `Self` modifier and no local record, resolution fails with the
no-provider error even though the parent provides `tokB`.  With the
`SkipSelf` modifier the locally present record is ignored and the parent's
value (`w`) is returned. -/
theorem dependencyModifierScopeBehavior (v w : Value) :
    (chainGet envFirstArg (parentRecs w) (childRecs v (DepEntry.plain tokB))).1
      = Except.ok v
    ∧ (chainGet envFirstArg (parentRecs w) (childRecsNoB (DepEntry.plain tokB))).1
      = Except.ok w
    ∧ errTagOf (chainGet envFirstArg (parentRecs w) (childRecsNoB selfDepB)).1
      = some ErrTag.noProvider
    ∧ (chainGet envFirstArg (parentRecs w) (childRecs v skipSelfDepB)).1
      = Except.ok w :=
  ⟨rfl, rfl, rfl, rfl⟩

/-- Claim C6: a dependency carrying the `Optional` modifier whose token
(`tokB`) has no provider anywhere in the permitted chain makes the resolver
pass `null` for exactly that dependency slot — whatever user factory `env`
runs, it receives `[null]` and its result `r` becomes the resolution result
instead of a failure.  Without the modifier the identical setup fails with
the no-provider error (nothing else is silently recovered: the factory is
never even invoked, so the result is independent of the environment). -/
theorem optionalDependencyYieldsNull (env : FnEnv) (r : Value)
    (henv : env 0 Value.undef [Value.null] = Except.ok r) :
    (soloGet env (soloRecs optionalDepB)).1 = Except.ok r
    ∧ ∀ env2 : FnEnv, errTagOf (soloGet env2 (soloRecs (DepEntry.plain tokB))).1
        = some ErrTag.noProvider := by
  constructor
  · simp [soloGet, injectorGet, run, soloRecs, builtRecs, buildRecords, recursivelyProcessProviders,
      recursivelyProcessProviders.rppList, processDesc, resolveProvider, computeDeps, depEntryRec,
      depAnnStep, optionalDepB, descFacA, seedRecord, getId, mkSt, stRecs, alook, aset, setSlot,
      applyFn, henv, newFixup, OPT_DEFAULT, OPT_OPTIONAL, OPT_CHECK_SELF, OPT_CHECK_PARENT,
      tokA, tokB, nullRes]
  · intro env2
    rfl

/-- Witness for C6 at the concrete environment `envFirstArg` (the factory
returns its first argument): the optional missing dependency resolves the
token to `null`. -/
theorem optionalDependencyYieldsNullWitness :
    envFirstArg 0 Value.undef [Value.null] = Except.ok Value.null
    ∧ ((soloGet envFirstArg (soloRecs optionalDepB)).1 = Except.ok Value.null
      ∧ ∀ env2 : FnEnv, errTagOf (soloGet env2 (soloRecs (DepEntry.plain tokB))).1
          = some ErrTag.noProvider) :=
  ⟨rfl, optionalDependencyYieldsNull envFirstArg Value.null rfl⟩

/-- Claim C8: registering the same token (`tokM`) both with `multi: true` and
without it fails scope construction with the mixed-multi-provider error, in
either order and for arbitrary provided values; consequently a registry can
never hold a multi placeholder and a regular record for one token at once
(both would live under the same key, and every write that would mix them
throws instead). -/
theorem mixedMultiProviderBuildError (v1 v2 : Value) (sid : Nat) :
    errTagOf (buildRecords sid
      [ProviderEntry.objWithProvide { provide := tokM, useValue := some v1, multi := true },
       ProviderEntry.objWithProvide { provide := tokM, useValue := some v2 }])
      = some ErrTag.mixedMulti
    ∧ errTagOf (buildRecords sid
      [ProviderEntry.objWithProvide { provide := tokM, useValue := some v2 },
       ProviderEntry.objWithProvide { provide := tokM, useValue := some v1, multi := true }])
      = some ErrTag.mixedMulti :=
  ⟨rfl, rfl⟩

/-- A non-`undefined` construction result is kept as is by the
`useNew`/`undefined` fixup. -/
theorem newFixup_of_ne (b : Bool) (i w : Value) (h : w ≠ Value.undef) : newFixup b i w = w := by
  cases b <;> cases w <;> first | rfl | exact absurd rfl h

/-- Claim C9: a class-kind record is instantiated with `new` semantics — a
fresh instance (`Value.obj 0`, the first fresh object id) is created, the
class body runs with it as `this` over the resolved dependency values
(`[va]` here) — and if the body returns `undefined` the resolved value is
that fresh instance, while any other returned value `w` is kept. -/
theorem classConstructionUndefinedReturnsInstance (env : FnEnv) (va : Value) :
    (env 3 (Value.obj 0) [va] = Except.ok Value.undef →
      (clsGet env va).1 = Except.ok (Value.obj 0))
    ∧ (∀ w : Value, env 3 (Value.obj 0) [va] = Except.ok w → w ≠ Value.undef →
      (clsGet env va).1 = Except.ok w) := by
  constructor
  · intro henv
    simp [clsGet, injectorGet, run, clsProvs, builtRecs, buildRecords, recursivelyProcessProviders,
      recursivelyProcessProviders.rppList, processDesc, resolveProvider, computeDeps, depEntryRec,
      seedRecord, getId, mkSt, stRecs, alook, aset, setSlot, applyFn, henv, newFixup,
      OPT_DEFAULT, OPT_OPTIONAL, OPT_CHECK_SELF, OPT_CHECK_PARENT, tokA, tokC]
  · intro w henv hw
    simp [clsGet, injectorGet, run, clsProvs, builtRecs, buildRecords, recursivelyProcessProviders,
      recursivelyProcessProviders.rppList, processDesc, resolveProvider, computeDeps, depEntryRec,
      seedRecord, getId, mkSt, stRecs, alook, aset, setSlot, applyFn, henv,
      newFixup_of_ne true _ w hw,
      OPT_DEFAULT, OPT_OPTIONAL, OPT_CHECK_SELF, OPT_CHECK_PARENT, tokA, tokC]

/-- Witness for C9: with a class body returning `undefined` the token
resolves to the fresh instance `obj 0`; with a body returning `5` it
resolves to `5`. -/
theorem classConstructionUndefinedReturnsInstanceWitness :
    (envUndef 3 (Value.obj 0) [Value.num 1] = Except.ok Value.undef
      ∧ (clsGet envUndef (Value.num 1)).1 = Except.ok (Value.obj 0))
    ∧ (envNum5 3 (Value.obj 0) [Value.num 1] = Except.ok (Value.num 5)
      ∧ (clsGet envNum5 (Value.num 1)).1 = Except.ok (Value.num 5)) :=
  ⟨⟨rfl, (classConstructionUndefinedReturnsInstance envUndef (Value.num 1)).1 rfl⟩,
   ⟨rfl, (classConstructionUndefinedReturnsInstance envNum5 (Value.num 1)).2 (Value.num 5) rfl
      (by simp)⟩⟩

/-- Claim C10: every falsy provider-list entry (`null`, `undefined`, `false`,
`0`, `''`) is silently skipped — it adds no record and raises no error, and a
build from just a falsy entry equals a build from the empty list — while a
truthy primitive or a truthy object without a `provide` key is rejected with
the invalid-provider (`Unexpected provider`) error and a bare function with
the dedicated function-not-supported error. -/
theorem falsyProvidersSkipped :
    (∀ (recs : Records) (k : FalsyKind),
      recursivelyProcessProviders recs (ProviderEntry.falsy k) = Except.ok recs)
    ∧ (∀ (sid : Nat) (k : FalsyKind),
      buildRecords sid [ProviderEntry.falsy k] = buildRecords sid [])
    ∧ (∀ sid : Nat,
      errTagOf (buildRecords sid [ProviderEntry.prim]) = some ErrTag.unexpectedProvider)
    ∧ (∀ sid : Nat,
      errTagOf (buildRecords sid [ProviderEntry.objNoProvide]) = some ErrTag.unexpectedProvider)
    ∧ (∀ sid : Nat,
      errTagOf (buildRecords sid [ProviderEntry.func 0]) = some ErrTag.functionNotSupported) :=
  ⟨fun _ _ => rfl, fun _ _ => rfl, fun _ => rfl, fun _ => rfl, fun _ => rfl⟩

/-- Counterexample to C4 as stated: a provider list may override the seeded
self record (`{provide: Injector, useValue: 42}` lands on the same registry
key), so `get(Injector)` then returns `42`, which is not the owning scope's
own `get` entry point (`Value.injRef 0`). -/
theorem injectorTokenOverrideCounterexample :
    (injectorGet envFirstArg 9 (Scope.node 0 Scope.null) (mkSt [(0, builtRecs 0 overrideProvs)])
      Token.injector (NotFound.value Value.undef)).1 = Except.ok (Value.num 42)
    ∧ Value.num 42 ≠ Value.injRef 0 :=
  ⟨rfl, by simp⟩

/-- Processing one provider description whose token is not `Injector` leaves
the seeded self-record binding untouched (all registry writes land on the
description's own key or on munged multi keys). -/
theorem processDesc_keeps (recs : Records) (d : ProviderDesc) (recs' : Records)
    (hne : d.provide ≠ Token.injector)
    (h : processDesc recs d = Except.ok recs') :
    alook recs' (getId Token.injector) = alook recs (getId Token.injector) := by
  have hq1 : getId Token.injector ≠ getId d.provide := by
    simp only [getId, ne_eq, RKey.tok.injEq]
    exact fun e => hne e.symm
  have hq2 : ∀ (i : Nat) (k : RKey), getId Token.injector ≠ RKey.munged i k := by
    intro i k
    simp [getId]
  simp only [processDesc] at h
  split at h
  · simp at h
  · rename_i rp hrp
    split at h
    · simp at h
    · rename_i recs1 id1 hstep
      have hcore : alook recs1 (getId Token.injector) = alook recs (getId Token.injector)
          ∧ getId Token.injector ≠ id1 := by
        split at hstep
        · split at hstep
          · rename_i mp hmp
            split at hstep
            · injection hstep with h1
              injection h1 with ha hb
              subst ha; subst hb
              exact ⟨alook_aset_ne _ _ _ _ hq1, hq2 _ _⟩
            · simp at hstep
          · injection hstep with h1
            injection h1 with ha hb
            subst ha; subst hb
            exact ⟨alook_aset_ne _ _ _ _ hq1, hq2 _ _⟩
        · injection hstep with h1
          injection h1 with ha hb
          subst ha; subst hb
          exact ⟨rfl, hq1⟩
      obtain ⟨hA, hB⟩ := hcore
      split at h
      · split at h
        · simp at h
        · injection h with h1
          rw [← h1, alook_aset_ne _ _ _ _ hB]
          exact hA
      · injection h with h1
        rw [← h1, alook_aset_ne _ _ _ _ hB]
        exact hA

/-- A provider tree that never names the `Injector` token leaves the seeded
self-record binding intact through the whole registry build. -/
theorem rpp_keepsInjector :
    ∀ (recs : Records) (p : ProviderEntry), noInjP p = true →
      ∀ recs' : Records, recursivelyProcessProviders recs p = Except.ok recs' →
      alook recs' (getId Token.injector) = alook recs (getId Token.injector) := by
  intro recs0 p0
  refine recursivelyProcessProviders.induct
    (fun recs ps => noInjP.noInjL ps = true → ∀ recs' : Records,
      recursivelyProcessProviders.rppList recs ps = Except.ok recs' →
      alook recs' (getId Token.injector) = alook recs (getId Token.injector))
    (fun recs p => noInjP p = true → ∀ recs' : Records,
      recursivelyProcessProviders recs p = Except.ok recs' →
      alook recs' (getId Token.injector) = alook recs (getId Token.injector))
    ?_ ?_ ?_ ?_ ?_ ?_ ?_ ?_ ?_ recs0 p0
  · intro recs a _ recs' hh
    simp only [recursivelyProcessProviders] at hh
    injection hh with hh
    rw [hh]
  · intro recs ps ih h recs' hh
    simp only [recursivelyProcessProviders] at hh
    simp only [noInjP] at h
    exact ih h recs' hh
  · intro x a _ recs' hh
    simp only [recursivelyProcessProviders] at hh
    simp at hh
  · intro recs d h recs' hh
    simp only [recursivelyProcessProviders] at hh
    simp only [noInjP] at h
    exact processDesc_keeps recs d recs' (of_decide_eq_true h) hh
  · intro x _ recs' hh
    simp only [recursivelyProcessProviders] at hh
    simp at hh
  · intro x _ recs' hh
    simp only [recursivelyProcessProviders] at hh
    simp at hh
  · intro recs _ recs' hh
    simp only [recursivelyProcessProviders.rppList] at hh
    injection hh with hh
    rw [hh]
  · intro recs p t recs2 hrec ihp iht h recs3 hh
    simp only [noInjP.noInjL, Bool.and_eq_true] at h
    simp only [recursivelyProcessProviders.rppList, hrec] at hh
    exact (iht h.2 recs3 hh).trans (ihp h.1 recs2 hrec)
  · intro recs p t e hrec _ h recs3 hh
    simp only [recursivelyProcessProviders.rppList, hrec] at hh
    simp at hh

/-- Amended claim C4: for every scope built from a provider list that does
not itself register the `Injector` token, `get` with the scope-itself token
always succeeds — with no fallback supplied and whatever the parent chain
is — and returns the owning scope's own injector instance (`Value.injRef
sid`, the scope's `get` entry point), leaving the state untouched.  (The
unamended claim, quantified over all provider lists, fails: see the
counterexample, where a `{provide: Injector, useValue: 42}` entry overwrites
the seeded self record.) -/
theorem injectorSelfTokenAmended (providers : List ProviderEntry) (env : FnEnv) (f sid : Nat)
    (parent : Scope) (st : St) (recs : Records) (nf : NotFound)
    (hno : noInjP (ProviderEntry.arr providers) = true)
    (hbuild : buildRecords sid providers = Except.ok recs)
    (hst : stRecs st sid = recs)
    (hf : 3 ≤ f) :
    injectorGet env f (Scope.node sid parent) st Token.injector nf
      = (Except.ok (Value.injRef sid), st) := by
  have hseed : alook recs (getId Token.injector) = some (seedRecord sid) := by
    have hk := rpp_keepsInjector [(getId Token.injector, seedRecord sid)]
      (ProviderEntry.arr providers) hno recs hbuild
    rw [hk]
    simp [alook]
  obtain ⟨g, rfl⟩ : ∃ g, f = g + 3 := ⟨f - 3, by omega⟩
  have halo : alook (stRecs st sid) (getId Token.injector) = some (seedRecord sid) := by
    rw [hst]; exact hseed
  have hrid : (if (alook (stRecs st sid) (getId Token.injector)).isSome
      then some (getId Token.injector) else none) = some (getId Token.injector) := by
    rw [halo]; rfl
  have g2 := run_resC_resolved env g sid parent Token.injector (getId Token.injector) nf st
    (seedRecord sid) (Value.injRef sid) halo rfl
  have g1 := run_tryC_ok env (g + 1) sid parent Token.injector (some (getId Token.injector))
    nf st st _ g2
  have g0 := run_getC_node_ok env (g + 1 + 1) sid parent Token.injector nf st st _
    (some (getId Token.injector)) hrid g1
  unfold injectorGet
  have hfe : g + 3 = g + 1 + 1 + 1 := by omega
  rw [hfe, g0]

/-- Witness for the amended C4: a scope built from a one-entry value-provider
list resolves the `Injector` token to its own instance. -/
theorem injectorSelfTokenAmendedWitness :
    (noInjP (ProviderEntry.arr [descValB (Value.num 1)]) = true
      ∧ buildRecords 0 [descValB (Value.num 1)] = Except.ok (builtRecs 0 [descValB (Value.num 1)])
      ∧ stRecs (mkSt [(0, builtRecs 0 [descValB (Value.num 1)])]) 0
          = builtRecs 0 [descValB (Value.num 1)]
      ∧ 3 ≤ 3)
    ∧ injectorGet envFirstArg 3 (Scope.node 0 Scope.null)
        (mkSt [(0, builtRecs 0 [descValB (Value.num 1)])]) Token.injector
        (NotFound.value Value.undef)
      = (Except.ok (Value.injRef 0), mkSt [(0, builtRecs 0 [descValB (Value.num 1)])]) :=
  ⟨⟨rfl, rfl, rfl, by omega⟩,
    injectorSelfTokenAmended [descValB (Value.num 1)] envFirstArg 3 0 Scope.null
      (mkSt [(0, builtRecs 0 [descValB (Value.num 1)])]) (builtRecs 0 [descValB (Value.num 1)])
      (NotFound.value Value.undef) rfl rfl rfl (by omega)⟩

/-- The multi placeholder collects one dependency per contribution. -/
theorem mdeps_length (k m : Nat) : (mdeps k m).length = m := by
  induction m generalizing k with
  | zero => rfl
  | succ m ih => simp [mdeps, ih]

/-- Appending the next munged dependency extends the placeholder list. -/
theorem mdeps_snoc (k m : Nat) : mdeps k m ++ [mdep (k + m)] = mdeps k (m + 1) := by
  induction m generalizing k with
  | zero => simp [mdeps]
  | succ m ih =>
    show mdep k :: (mdeps (k + 1) m ++ [mdep (k + (m + 1))]) = mdep k :: mdeps (k + 1) (m + 1)
    rw [show k + (m + 1) = (k + 1) + m from by omega, ih]

/-- Appending the next constituent record extends the munged-record block. -/
theorem ments_snoc (k : Nat) (pre : List Value) (v : Value) :
    ments k pre ++ [(RKey.munged (k + pre.length) kM, mval v)] = ments k (pre ++ [v]) := by
  induction pre generalizing k with
  | nil => simp [ments]
  | cons x t ih =>
    show (RKey.munged k kM, mval x) :: (ments (k + 1) t
        ++ [(RKey.munged (k + (t.length + 1)) kM, mval v)]) = _
    rw [show k + (t.length + 1) = (k + 1) + t.length from by omega, ih]
    rfl

/-- A munged index at or past the end of the block is absent. -/
theorem ments_alook_none (j : Nat) (pre : List Value) :
    ∀ k, pre.length + k ≤ j → alook (ments k pre) (RKey.munged j kM) = none := by
  induction pre with
  | nil => intro k _; rfl
  | cons x t ih =>
    intro k h
    have hk : ¬ (RKey.munged k kM = RKey.munged j kM) := by
      simp only [RKey.munged.injEq]
      intro hq
      simp only [List.length_cons] at h
      omega
    show (if RKey.munged k kM = RKey.munged j kM then some (mval x) else
      alook (ments (k + 1) t) (RKey.munged j kM)) = none
    rw [if_neg hk]
    exact ih (k + 1) (by simp only [List.length_cons] at h; omega)

/-- Lookup of the `i`-th munged record returns the `i`-th contribution. -/
theorem ments_alook_at (pre : List Value) (v : Value) (t : List Value) :
    ∀ k, alook (ments k (pre ++ v :: t)) (RKey.munged (k + pre.length) kM) = some (mval v) := by
  induction pre with
  | nil => intro k; simp [ments, alook]
  | cons x s ih =>
    intro k
    have hk : ¬ (RKey.munged k kM = RKey.munged (k + (x :: s).length) kM) := by
      simp only [RKey.munged.injEq, List.length_cons]
      intro hq
      omega
    show (if RKey.munged k kM = RKey.munged (k + (x :: s).length) kM then some (mval x) else
      alook (ments (k + 1) (s ++ v :: t)) (RKey.munged (k + (x :: s).length) kM)) = some (mval v)
    rw [if_neg hk, show k + (x :: s).length = (k + 1) + s.length from by simp; omega]
    exact ih (k + 1)

/-- Processing the first multi contribution creates the placeholder and the
first munged constituent record. -/
theorem multiStep0 (v : Value) :
    processDesc [(getId Token.injector, seedRecord 0)]
      { provide := tokM, useValue := some v, multi := true }
      = Except.ok (multiState [v] Slot.empty) := rfl

/-- Processing the next multi contribution appends one placeholder dependency
and one munged constituent record, preserving registration order. -/
theorem multiStepS (pre : List Value) (v : Value) :
    processDesc (multiState pre Slot.empty) { provide := tokM, useValue := some v, multi := true }
      = Except.ok (multiState (pre ++ [v]) Slot.empty) := by
  have hlook : alook (multiState pre Slot.empty) (getId tokM)
      = some (mph pre.length Slot.empty) := by
    simp [multiState, alook, kM, getId, tokM]
  simp only [processDesc, resolveProvider, computeDeps]
  simp only [Option.isSome_some, if_true, hlook, mph, mdeps_length]
  simp only [show getId tokM = kM from rfl]
  simp only [show ({ id := RKey.munged pre.length kM, token := tokM, options := OPT_DEFAULT } : DependencyRecord) = mdep pre.length from rfl]
  have hsnoc := mdeps_snoc 0 pre.length
  rw [Nat.zero_add] at hsnoc
  rw [hsnoc]
  simp only [show ({ token := tokM, fn := RecFn.multiFn, useNew := false, deps := mdeps 0 (pre.length + 1), value := Slot.empty } : Record) = mph (pre.length + 1) Slot.empty from rfl]
  simp only [show ({ token := tokM, fn := RecFn.ident, useNew := false, deps := [], value := Slot.resolved v } : Record) = mval v from rfl]
  have e1 : aset (multiState pre Slot.empty) kM (mph (pre.length + 1) Slot.empty)
      = (getId Token.injector, seedRecord 0) :: (kM, mph (pre.length + 1) Slot.empty)
        :: ments 0 pre := by
    simp [multiState, aset, show ¬ (getId Token.injector = kM) from by decide]
  have hnone : alook (aset (multiState pre Slot.empty) kM (mph (pre.length + 1) Slot.empty))
      (RKey.munged pre.length kM) = none := by
    rw [e1]
    simp only [alook]
    rw [if_neg (by simp [getId]), if_neg (by simp [kM, getId])]
    exact ments_alook_none pre.length pre 0 (by omega)
  rw [hnone]
  have hsn := ments_snoc 0 pre v
  rw [Nat.zero_add] at hsn
  have hfin : aset (aset (multiState pre Slot.empty) kM (mph (pre.length + 1) Slot.empty))
      (RKey.munged pre.length kM) (mval v) = multiState (pre ++ [v]) Slot.empty := by
    rw [e1]
    simp only [aset]
    rw [if_neg (by simp [getId]), if_neg (by simp [kM, getId])]
    rw [aset_of_alook_none _ _ _ (ments_alook_none pre.length pre 0 (by omega))]
    rw [hsn]
    simp [multiState, mph, List.length_append]
  exact congrArg Except.ok hfin

/-- An empty dependency list resolves to the empty value list. -/
theorem run_depsC_nil (env : FnEnv) (g sid : Nat) (parent : Scope) (st : St) :
    run env (g + 1) (CallK.depsC sid parent []) st = (Except.ok (RVal.many []), st) := rfl

/-- Registry of the single scope of a one-entry store. -/
theorem stRecs_mkSt (recs : Records) : stRecs (mkSt [(0, recs)]) 0 = recs := rfl

/-- Forward computation of one step of the dependency loop when the
dependency is found in the own registry with default options. -/
theorem run_depsC_cons_ok (env : FnEnv) (f sid : Nat) (parent : Scope) (d : DependencyRecord)
    (rest : List DependencyRecord) (st st1 st2 : St) (v : Value) (vs : List Value)
    (hpres : ((d.options &&& OPT_CHECK_SELF) != 0 && (alook (stRecs st sid) d.id).isSome) = true)
    (hopt : ((d.options &&& OPT_OPTIONAL) != 0) = false)
    (htry : run env f (CallK.tryC sid parent d.token (some d.id) NotFound.throwIfNotFound) st
      = (Except.ok (RVal.one v), st1))
    (hrest : run env f (CallK.depsC sid parent rest) st1 = (Except.ok (RVal.many vs), st2)) :
    run env (f + 1) (CallK.depsC sid parent (d :: rest)) st
      = (Except.ok (RVal.many (v :: vs)), st2) := by
  simp only [run, hpres, hopt, Bool.not_true, Bool.false_and, if_true, if_false, htry, hrest]
  simp [htry, hrest]

/-- Folding further multi contributions over an existing placeholder state
appends them in list order. -/
theorem multiBuildList (vs : List Value) :
    ∀ pre : List Value, recursivelyProcessProviders.rppList (multiState pre Slot.empty)
      (multiProvs vs) = Except.ok (multiState (pre ++ vs) Slot.empty) := by
  induction vs with
  | nil =>
    intro pre
    simp [multiProvs, recursivelyProcessProviders.rppList]
  | cons v t ih =>
    intro pre
    simp only [multiProvs, List.map_cons]
    simp only [recursivelyProcessProviders.rppList, recursivelyProcessProviders, mdesc, multiStepS]
    have h2 := ih (pre ++ [v])
    simp only [multiProvs] at h2
    rw [h2]
    simp

/-- Building a registry from a nonempty list of multi contributions for
`tokM` yields the seeded record, the placeholder, and one munged record per
contribution, in registration order. -/
theorem multiBuild (v : Value) (t : List Value) :
    buildRecords 0 (multiProvs (v :: t)) = Except.ok (multiState (v :: t) Slot.empty) := by
  simp only [buildRecords, multiProvs, List.map_cons, recursivelyProcessProviders]
  simp only [recursivelyProcessProviders.rppList, recursivelyProcessProviders, mdesc, multiStep0]
  have h2 := multiBuildList t [v]
  simp only [multiProvs] at h2
  rw [h2]
  simp

/-- Resolving the placeholder's dependency list returns exactly the
contributed values in registration order, leaving the state unchanged (each
constituent record is a pre-resolved `useValue` record). -/
theorem multiDepsRun (env : FnEnv) (parent : Scope) :
    ∀ (t pre : List Value) (f : Nat),
      run env (t.length + f + 2) (CallK.depsC 0 parent (mdeps pre.length t.length))
        (mkSt [(0, multiState (pre ++ t) Slot.circular)])
      = (Except.ok (RVal.many t), mkSt [(0, multiState (pre ++ t) Slot.circular)]) := by
  intro t
  induction t with
  | nil =>
    intro pre f
    rw [show ([] : List Value).length + f + 2 = (f + 1) + 1 from by simp]
    simp only [mdeps, run_depsC_nil]
  | cons v s ih =>
    intro pre f
    have halo : alook (stRecs (mkSt [(0, multiState (pre ++ v :: s) Slot.circular)]) 0)
        (RKey.munged pre.length kM) = some (mval v) := by
      rw [stRecs_mkSt]
      show alook ((getId Token.injector, seedRecord 0)
        :: (kM, mph (pre ++ v :: s).length Slot.circular) :: ments 0 (pre ++ v :: s))
        (RKey.munged pre.length kM) = some (mval v)
      simp only [alook]
      rw [if_neg (by simp [getId]), if_neg (by simp [kM, getId])]
      have hat := ments_alook_at pre v s 0
      rw [Nat.zero_add] at hat
      exact hat
    have hres := run_resC_resolved env (s.length + f) 0 parent tokM (RKey.munged pre.length kM)
      NotFound.throwIfNotFound (mkSt [(0, multiState (pre ++ v :: s) Slot.circular)])
      (mval v) v halo rfl
    have htry := run_tryC_ok env (s.length + f + 1) 0 parent tokM
      (some (RKey.munged pre.length kM)) NotFound.throwIfNotFound _ _ _ hres
    have hrest := ih (pre ++ [v]) f
    rw [show (pre ++ [v]).length = pre.length + 1 from by simp] at hrest
    rw [show (pre ++ [v]) ++ s = pre ++ v :: s from by simp] at hrest
    rw [show (v :: s).length + f + 2 = (s.length + f + 2) + 1 from by simp; omega]
    rw [show mdeps pre.length (v :: s).length
      = mdep pre.length :: mdeps (pre.length + 1) s.length from by simp [mdeps]]
    exact run_depsC_cons_ok env (s.length + f + 2) 0 parent (mdep pre.length)
      (mdeps (pre.length + 1) s.length) _ _ _ v s
      (by simp [mdep, OPT_DEFAULT, OPT_CHECK_SELF, OPT_CHECK_PARENT, OPT_OPTIONAL, halo])
      (by simp [mdep, OPT_DEFAULT, OPT_CHECK_SELF, OPT_CHECK_PARENT, OPT_OPTIONAL]) htry hrest

/-- Forward computation of `resolveToken` on an unresolved slot whose
dependency loop and construction function succeed. -/
theorem run_resC_empty_ok (env : FnEnv) (f sid : Nat) (parent : Scope) (t : Token) (k : RKey)
    (nf : NotFound) (st : St) (r : Record) (vs : List Value) (stm : St) (w : Value) (st3 : St)
    (hrec : alook (stRecs st sid) k = some r) (hv : r.value = Slot.empty)
    (hdeps : run env f (CallK.depsC sid parent r.deps) (setSlot st sid k Slot.circular)
      = (Except.ok (RVal.many vs), stm))
    (happ : applyFn env stm r.fn r.useNew vs = (Except.ok w, st3)) :
    run env (f + 1) (CallK.resC sid parent t (some k) nf) st
      = (Except.ok (RVal.one w), setSlot st3 sid k (Slot.resolved w)) := by
  simp only [run, hrec, hv, hdeps, happ]

/-- Claim C7: for every nonempty list of values contributed to `tokM`
through descriptions flagged `multi: true`, `get(tokM)` returns the array of
exactly those values, one element per contributing description, in
registration order (fuel `n + 6` suffices for `n` contributions). -/
theorem multiProviderOrderPreserved (env : FnEnv) (parent : Scope) (nf : NotFound) (v : Value)
    (t : List Value) :
    (injectorGet env ((v :: t).length + 6) (Scope.node 0 parent)
      (mkSt [(0, builtRecs 0 (multiProvs (v :: t)))]) tokM nf).1
    = Except.ok (Value.arrV (v :: t)) := by
  have hbr : builtRecs 0 (multiProvs (v :: t)) = multiState (v :: t) Slot.empty := by
    simp [builtRecs, multiBuild]
  rw [hbr]
  have halo : alook (stRecs (mkSt [(0, multiState (v :: t) Slot.empty)]) 0) (getId tokM)
      = some (mph (v :: t).length Slot.empty) := by
    simp [multiState, alook, kM, show ¬ (getId Token.injector = getId tokM) from by decide]
  have hset : setSlot (mkSt [(0, multiState (v :: t) Slot.empty)]) 0 (getId tokM) Slot.circular
      = mkSt [(0, multiState (v :: t) Slot.circular)] := by
    simp [setSlot, halo, stRecs, mkSt, aset, multiState, alook, kM, mph,
      show ¬ (getId Token.injector = getId tokM) from by decide]
  have hdeps0 := multiDepsRun env parent (v :: t) [] 1
  rw [show (v :: t).length + 1 + 2 = (v :: t).length + 3 from by omega] at hdeps0
  have hdeps : run env ((v :: t).length + 3)
      (CallK.depsC 0 parent (mph (v :: t).length Slot.empty).deps)
      (setSlot (mkSt [(0, multiState (v :: t) Slot.empty)]) 0 (getId tokM) Slot.circular)
      = (Except.ok (RVal.many (v :: t)), mkSt [(0, multiState (v :: t) Slot.circular)]) := by
    rw [hset]
    exact hdeps0
  have happ : applyFn env (mkSt [(0, multiState (v :: t) Slot.circular)])
      (mph (v :: t).length Slot.empty).fn (mph (v :: t).length Slot.empty).useNew (v :: t)
      = (Except.ok (Value.arrV (v :: t)), mkSt [(0, multiState (v :: t) Slot.circular)]) := rfl
  have hres := run_resC_empty_ok env ((v :: t).length + 3) 0 parent tokM (getId tokM) nf
    (mkSt [(0, multiState (v :: t) Slot.empty)]) (mph (v :: t).length Slot.empty)
    (v :: t) (mkSt [(0, multiState (v :: t) Slot.circular)]) (Value.arrV (v :: t))
    (mkSt [(0, multiState (v :: t) Slot.circular)]) halo rfl hdeps happ
  have htry := run_tryC_ok env ((v :: t).length + 3 + 1) 0 parent tokM (some (getId tokM)) nf
    _ _ _ hres
  have hrid : (if (alook (stRecs (mkSt [(0, multiState (v :: t) Slot.empty)]) 0)
      (getId tokM)).isSome then some (getId tokM) else none) = some (getId tokM) := by
    rw [halo]; rfl
  have hget := run_getC_node_ok env ((v :: t).length + 3 + 1 + 1) 0 parent tokM nf
    _ _ _ (some (getId tokM)) hrid htry
  rw [show (v :: t).length + 6 = (v :: t).length + 3 + 1 + 1 + 1 from by omega]
  unfold injectorGet
  rw [hget]

/-- The in-progress (`CIRCULAR`) marks can only shrink across any resolver
call: a slot marked circular afterwards was already marked before, except the
own record of a currently failing `resolveToken` frame (whose wrapping
`tryResolveToken` resets it on the way out). -/
theorem run_circ (env : FnEnv) :
    ∀ (f : Nat) (c : CallK) (st : St) (r : Except JsError RVal) (st' : St) (a : Nat) (b : RKey),
      run env f c st = (r, st') → slotAt st' a b = some Slot.circular →
      slotAt st a b = some Slot.circular
      ∨ ∃ sid parent t k nf, c = CallK.resC sid parent t (some k) nf ∧ a = sid ∧ b = k
          ∧ ∃ e, r = Except.error e := by
  intro f
  induction f with
  | zero =>
    intro c st r st' a b hrun hc
    rw [run_zero] at hrun
    have hst : st = st' := congrArg Prod.snd hrun
    rw [hst]
    exact Or.inl hc
  | succ f ih =>
    intro c st r st' a b hrun hc
    have key : ∀ (c' : CallK) (st0 : St) (r0 : Except JsError RVal) (st1 : St),
        run env f c' st0 = (r0, st1) → slotAt st1 a b = some Slot.circular →
        slotAt st0 a b = some Slot.circular
        ∨ ∃ sid parent t k nf, c' = CallK.resC sid parent t (some k) nf ∧ a = sid ∧ b = k
            ∧ ∃ e, r0 = Except.error e := fun c' st0 r0 st1 => ih c' st0 r0 st1 a b
    cases c with
    | getC sc token nf =>
      cases sc with
      | null =>
        have hst : st = st' := by
          cases nf with
          | throwIfNotFound => exact congrArg Prod.snd hrun
          | value v => cases v <;> exact congrArg Prod.snd hrun
        rw [hst]
        exact Or.inl hc
      | node sid parent =>
        simp only [run] at hrun
        split at hrun <;> rename_i rv stx heq <;>
          have hst : stx = st' := congrArg Prod.snd hrun <;>
          rw [← hst] at hc <;>
          rcases key _ _ _ _ heq hc with h | ⟨_, _, _, _, _, habs, _⟩
        · exact Or.inl h
        · exact absurd habs (by simp)
        · exact Or.inl h
        · exact absurd habs (by simp)
    | tryC sid parent token rid nf =>
      simp only [run] at hrun
      split at hrun
      · rename_i rv stx heq
        have hst : stx = st' := congrArg Prod.snd hrun
        rw [← hst] at hc
        rcases key _ _ _ _ heq hc with h | ⟨s2, p2, t2, k2, n2, habs, ha, hb, e2, herr⟩
        · exact Or.inl h
        · cases herr
      · rename_i e stx heq
        rcases hrid : rid with _ | k2 <;> simp only [hrid] at hrun
        · have hst : stx = st' := congrArg Prod.snd hrun
          rw [← hst] at hc
          rcases key _ _ _ _ heq hc with h | ⟨s2, p2, t2, k3, n2, habs, ha, hb, e2, herr⟩
          · exact Or.inl h
          · injection habs with hb1 hb2 hb3 hb4 hb5
            rw [hrid] at hb4
            cases hb4
        · rcases halo2 : alook (stRecs stx sid) k2 with _ | r2 <;> simp only [halo2] at hrun
          · have hst : stx = st' := congrArg Prod.snd hrun
            rw [← hst] at hc
            rcases key _ _ _ _ heq hc with h | ⟨s2, p2, t2, k3, n2, habs, ha, hb, e2, herr⟩
            · exact Or.inl h
            · injection habs with hb1 hb2 hb3 hb4 hb5
              rw [hrid] at hb4
              injection hb4 with hb4
              subst hb1; subst hb4; subst ha; subst hb
              have hnone : slotAt stx a b = none := by
                show (alook (stRecs stx a) b).map _ = none
                rw [halo2]
                rfl
              rw [hnone] at hc
              cases hc
          · cases hv2 : r2.value with
            | circular =>
              simp only [hv2] at hrun
              have hst : setSlot stx sid k2 Slot.empty = st' := congrArg Prod.snd hrun
              rw [← hst] at hc
              by_cases hab : a = sid ∧ b = k2
              · obtain ⟨ha, hb⟩ := hab
                subst ha; subst hb
                rw [slotAt_setSlot_self stx a b Slot.empty r2 halo2] at hc
                cases hc
              · have hne : a ≠ sid ∨ b ≠ k2 := not_and_or.mp hab
                rw [slotAt_setSlot_ne stx sid k2 Slot.empty a b hne] at hc
                rcases key _ _ _ _ heq hc with h | ⟨s2, p2, t2, k3, n2, habs, ha, hb, e2, herr⟩
                · exact Or.inl h
                · injection habs with hb1 hb2 hb3 hb4 hb5
                  rw [hrid] at hb4
                  injection hb4 with hb4
                  subst hb1; subst hb4; subst ha; subst hb
                  exact absurd ⟨rfl, rfl⟩ hab
            | empty =>
              simp only [hv2] at hrun
              have hst : stx = st' := congrArg Prod.snd hrun
              rw [← hst] at hc
              rcases key _ _ _ _ heq hc with h | ⟨s2, p2, t2, k3, n2, habs, ha, hb, e2, herr⟩
              · exact Or.inl h
              · injection habs with hb1 hb2 hb3 hb4 hb5
                rw [hrid] at hb4
                injection hb4 with hb4
                subst hb1; subst hb4; subst ha; subst hb
                have hval : slotAt stx a b = some Slot.empty := by
                  show (alook (stRecs stx a) b).map _ = some Slot.empty
                  rw [halo2]
                  exact congrArg some hv2
                rw [hval] at hc
                cases hc
            | resolved w =>
              simp only [hv2] at hrun
              have hst : stx = st' := congrArg Prod.snd hrun
              rw [← hst] at hc
              rcases key _ _ _ _ heq hc with h | ⟨s2, p2, t2, k3, n2, habs, ha, hb, e2, herr⟩
              · exact Or.inl h
              · injection habs with hb1 hb2 hb3 hb4 hb5
                rw [hrid] at hb4
                injection hb4 with hb4
                subst hb1; subst hb4; subst ha; subst hb
                have hval : slotAt stx a b = some (Slot.resolved w) := by
                  show (alook (stRecs stx a) b).map _ = some (Slot.resolved w)
                  rw [halo2]
                  exact congrArg some hv2
                rw [hval] at hc
                cases hc
    | resC sid parent token rid nf =>
      simp only [run] at hrun
      split at hrun
      · rcases key _ _ _ _ hrun hc with h | ⟨_, _, _, _, _, habs, _⟩
        · exact Or.inl h
        · exact absurd habs (by simp)
      · rename_i k
        split at hrun
        · rcases key _ _ _ _ hrun hc with h | ⟨_, _, _, _, _, habs, _⟩
          · exact Or.inl h
          · exact absurd habs (by simp)
        · rename_i r2 halo2
          split at hrun
          · have hst : st = st' := congrArg Prod.snd hrun
            rw [hst]
            exact Or.inl hc
          · have hst : st = st' := congrArg Prod.snd hrun
            rw [hst]
            exact Or.inl hc
          · rename_i hv2
            split at hrun
            · rename_i e2 st2 hdeps
              have hst : st2 = st' := congrArg Prod.snd hrun
              rw [← hst] at hc
              rcases key _ _ _ _ hdeps hc with h | ⟨_, _, _, _, _, habs, _⟩
              · by_cases hab : a = sid ∧ b = k
                · exact Or.inr ⟨sid, parent, token, k, nf, rfl, hab.1, hab.2,
                    e2, (congrArg Prod.fst hrun).symm⟩
                · rw [slotAt_setSlot_ne st sid k Slot.circular a b (not_and_or.mp hab)] at h
                  exact Or.inl h
              · exact absurd habs (by simp)
            · rename_i w2 st2 hdeps
              have hst : st2 = st' := congrArg Prod.snd hrun
              rw [← hst] at hc
              rcases key _ _ _ _ hdeps hc with h | ⟨_, _, _, _, _, habs, _⟩
              · by_cases hab : a = sid ∧ b = k
                · exact Or.inr ⟨sid, parent, token, k, nf, rfl, hab.1, hab.2,
                    internalErr, (congrArg Prod.fst hrun).symm⟩
                · rw [slotAt_setSlot_ne st sid k Slot.circular a b (not_and_or.mp hab)] at h
                  exact Or.inl h
              · exact absurd habs (by simp)
            · rename_i vs st2 hdeps
              split at hrun
              · rename_i e3 st3 happ
                have hst : st3 = st' := congrArg Prod.snd hrun
                rw [← hst] at hc
                have hs3 : st3.store = st2.store := by
                  have hh := applyFn_store env st2 r2.fn r2.useNew vs
                  rw [happ] at hh
                  exact hh
                rw [slotAt_congr st3 st2 hs3 a b] at hc
                rcases key _ _ _ _ hdeps hc with h | ⟨_, _, _, _, _, habs, _⟩
                · by_cases hab : a = sid ∧ b = k
                  · exact Or.inr ⟨sid, parent, token, k, nf, rfl, hab.1, hab.2,
                      e3, (congrArg Prod.fst hrun).symm⟩
                  · rw [slotAt_setSlot_ne st sid k Slot.circular a b (not_and_or.mp hab)] at h
                    exact Or.inl h
                · exact absurd habs (by simp)
              · rename_i w3 st3 happ
                have hst : setSlot st3 sid k (Slot.resolved w3) = st' := congrArg Prod.snd hrun
                rw [← hst] at hc
                have hs3 : st3.store = st2.store := by
                  have hh := applyFn_store env st2 r2.fn r2.useNew vs
                  rw [happ] at hh
                  exact hh
                by_cases hab : a = sid ∧ b = k
                · obtain ⟨ha, hb⟩ := hab
                  subst ha; subst hb
                  have s1 : statAt st2 a b = statAt (setSlot st a b Slot.circular) a b := by
                    have hh := run_statics env f (CallK.depsC a parent r2.deps)
                      (setSlot st a b Slot.circular) a b
                    rw [hdeps] at hh
                    exact hh
                  have s2 := statAt_setSlot st a b Slot.circular a b
                  have s3 := statAt_congr st3 st2 hs3 a b
                  have sall : statAt st3 a b = statAt st a b := (s3.trans s1).trans s2
                  have hpresent : ∃ r3, alook (stRecs st3 a) b = some r3 := by
                    unfold statAt at sall
                    rw [halo2] at sall
                    obtain ⟨r3, hr3, _⟩ := Option.map_eq_some'.mp sall
                    exact ⟨r3, hr3⟩
                  obtain ⟨r3, hr3⟩ := hpresent
                  rw [slotAt_setSlot_self st3 a b (Slot.resolved w3) r3 hr3] at hc
                  cases hc
                · rw [slotAt_setSlot_ne st3 sid k (Slot.resolved w3) a b (not_and_or.mp hab)] at hc
                  rw [slotAt_congr st3 st2 hs3 a b] at hc
                  rcases key _ _ _ _ hdeps hc with h | ⟨_, _, _, _, _, habs, _⟩
                  · rw [slotAt_setSlot_ne st sid k Slot.circular a b (not_and_or.mp hab)] at h
                    exact Or.inl h
                  · exact absurd habs (by simp)
    | depsC sid parent ds =>
      cases ds with
      | nil =>
        have hst : st = st' := congrArg Prod.snd hrun
        rw [hst]
        exact Or.inl hc
      | cons d rest =>
        simp only [run] at hrun
        split at hrun
        · rename_i e1 st1 heq
          have hst : st1 = st' := congrArg Prod.snd hrun
          rw [← hst] at hc
          rcases key _ _ _ _ heq hc with h | ⟨_, _, _, _, _, habs, _⟩
          · exact Or.inl h
          · exact absurd habs (by simp)
        · rename_i w1 st1 heq
          have hst : st1 = st' := congrArg Prod.snd hrun
          rw [← hst] at hc
          rcases key _ _ _ _ heq hc with h | ⟨_, _, _, _, _, habs, _⟩
          · exact Or.inl h
          · exact absurd habs (by simp)
        · rename_i v1 st1 heq
          split at hrun <;> rename_i st2 heq2 <;>
            have hst : st2 = st' := congrArg Prod.snd hrun <;>
            rw [← hst] at hc <;>
            rcases key _ _ _ _ heq2 hc with h | ⟨_, _, _, _, _, habs, _⟩
          all_goals
            first
            | exact absurd habs (by simp)
            | (rcases key _ _ _ _ heq h with h3 | ⟨_, _, _, _, _, habs2, _⟩
               · exact Or.inl h3
               · exact absurd habs2 (by simp))

/-- The decidable circular-free check implies the propositional one. -/
theorem noCirc_of_noCircB (st : St) (h : noCircB st = true) : noCirc st := by
  intro a b hc
  obtain ⟨r, hr, hv⟩ := Option.map_eq_some'.mp hc
  have hr' : alook ((alook st.store a).getD []) b = some r := hr
  cases hs : alook st.store a with
  | none => rw [hs] at hr'; simp [alook] at hr'
  | some recs =>
    rw [hs] at hr'
    have hm1 := alook_mem st.store a recs hs
    have hm2 := alook_mem recs b r hr'
    unfold noCircB at h
    rw [List.all_eq_true] at h
    have h2 := h (a, recs) hm1
    rw [List.all_eq_true] at h2
    have h3 := h2 (b, r) hm2
    rw [hv] at h3
    simp at h3

/-- Claim C3: whenever a resolution started by `get` fails with any error
(circular or otherwise), then once the exception has propagated out of the
top-level call every record that was marked in-progress during that
resolution has been reset: if no slot carried the `CIRCULAR` sentinel before
the call, none does afterwards, so a later retry is not spuriously reported
as a cycle. -/
theorem failureClearsInProgressMarks (env : FnEnv) (f : Nat) (sc : Scope) (st : St) (t : Token)
    (nf : NotFound) (e : JsError) (st' : St)
    (hnc : noCirc st)
    (h : injectorGet env f sc st t nf = (Except.error e, st')) : noCirc st' := by
  intro a b hc
  unfold injectorGet at h
  split at h
  · simp at h
  · rename_i vs stx heq
    have hst : stx = st' := congrArg Prod.snd h
    rw [← hst] at hc
    rcases run_circ env f _ st _ _ a b heq hc with h2 | ⟨_, _, _, _, _, habs, _⟩
    · exact hnc a b h2
    · exact absurd habs (by simp)
  · rename_i e2 stx heq
    have hst : stx = st' := congrArg Prod.snd h
    rw [← hst] at hc
    rcases run_circ env f _ st _ _ a b heq hc with h2 | ⟨_, _, _, _, _, habs, _⟩
    · exact hnc a b h2
    · exact absurd habs (by simp)

/-- Witness for C3: the self-dependent token `0` fails, and afterwards no
slot of the store is left marked in-progress. -/
theorem failureClearsInProgressMarksWitness :
    (noCirc (mkCycSt 1 0 0)
      ∧ injectorGet envFirstArg 9 (Scope.node 0 Scope.null) (mkCycSt 1 0 0) (Token.num 0)
          NotFound.throwIfNotFound = (Except.error c3wErr, c3wRes.2))
    ∧ noCirc c3wRes.2 :=
  ⟨⟨noCirc_of_noCircB _ rfl, rfl⟩,
    failureClearsInProgressMarks envFirstArg 9 (Scope.node 0 Scope.null) (mkCycSt 1 0 0)
      (Token.num 0) NotFound.throwIfNotFound c3wErr c3wRes.2 (noCirc_of_noCircB _ rfl) rfl⟩

/-- Forward computation of `resolveToken` hitting the in-progress sentinel:
the circular-dependency error is thrown with the state untouched. -/
theorem run_resC_circular (env : FnEnv) (f sid : Nat) (parent : Scope) (t : Token) (k : RKey)
    (nf : NotFound) (st : St) (r : Record)
    (hrec : alook (stRecs st sid) k = some r) (hv : r.value = Slot.circular) :
    run env (f + 1) (CallK.resC sid parent t (some k) nf) st
      = (Except.error circularErr, st) := by
  simp only [run, hrec, hv]

/-- Forward computation of `resolveToken` on an unresolved slot whose
dependency loop fails: the error propagates with the dependency loop's
state. -/
theorem run_resC_empty_err (env : FnEnv) (f sid : Nat) (parent : Scope) (t : Token) (k : RKey)
    (nf : NotFound) (st : St) (r : Record) (e : JsError) (stm : St)
    (hrec : alook (stRecs st sid) k = some r) (hv : r.value = Slot.empty)
    (hdeps : run env f (CallK.depsC sid parent r.deps) (setSlot st sid k Slot.circular)
      = (Except.error e, stm)) :
    run env (f + 1) (CallK.resC sid parent t (some k) nf) st = (Except.error e, stm) := by
  simp only [run, hrec, hv, hdeps]

/-- Forward computation of a failing `tryResolveToken` whose record is still
marked in-progress: the token is prepended to the path and the slot is reset
to unresolved. -/
theorem run_tryC_err_reset (env : FnEnv) (f sid : Nat) (parent : Scope) (t : Token) (k : RKey)
    (nf : NotFound) (st stx : St) (e : JsError) (r : Record)
    (heq : run env f (CallK.resC sid parent t (some k) nf) st = (Except.error e, stx))
    (halo : alook (stRecs stx sid) k = some r) (hv : r.value = Slot.circular) :
    run env (f + 1) (CallK.tryC sid parent t (some k) nf) st
      = (Except.error { e with tempPath := some (t :: e.tempPath.getD []) },
          setSlot stx sid k Slot.empty) := by
  simp only [run, heq, halo, hv]

/-- Forward computation of a failing `tryResolveToken` whose record's slot is
already unresolved (it was reset deeper in the recursion): no reset happens
here. -/
theorem run_tryC_err_empty (env : FnEnv) (f sid : Nat) (parent : Scope) (t : Token) (k : RKey)
    (nf : NotFound) (st stx : St) (e : JsError) (r : Record)
    (heq : run env f (CallK.resC sid parent t (some k) nf) st = (Except.error e, stx))
    (halo : alook (stRecs stx sid) k = some r) (hv : r.value = Slot.empty) :
    run env (f + 1) (CallK.tryC sid parent t (some k) nf) st
      = (Except.error { e with tempPath := some (t :: e.tempPath.getD []) }, stx) := by
  simp only [run, heq, halo, hv]

/-- Forward computation of one failing step of the dependency loop: the
dependency's failure aborts the whole loop. -/
theorem run_depsC_cons_err (env : FnEnv) (f sid : Nat) (parent : Scope) (d : DependencyRecord)
    (rest : List DependencyRecord) (st st1 : St) (e : JsError)
    (hpres : ((d.options &&& OPT_CHECK_SELF) != 0 && (alook (stRecs st sid) d.id).isSome) = true)
    (hopt : ((d.options &&& OPT_OPTIONAL) != 0) = false)
    (htry : run env f (CallK.tryC sid parent d.token (some d.id) NotFound.throwIfNotFound) st
      = (Except.error e, st1)) :
    run env (f + 1) (CallK.depsC sid parent (d :: rest)) st = (Except.error e, st1) := by
  simp only [run, hpres, hopt, Bool.not_true, Bool.false_and, if_true, if_false, htry]
  simp [htry]

/-- Lookup distributes over list append. -/
theorem alook_append {κ : Type} [DecidableEq κ] {α : Type} (l1 l2 : List (κ × α)) (k : κ) :
    alook (l1 ++ l2) k
      = match alook l1 k with
        | some v => some v
        | none => alook l2 k := by
  induction l1 with
  | nil => rfl
  | cons hd t ih =>
    rcases hd with ⟨k', r'⟩
    by_cases hk : k' = k
    · simp [alook, hk]
    · simp only [List.cons_append, alook, if_neg hk]
      exact ih

/-- Lookup of an out-of-range index in an indexed map built over
`List.range`. -/
theorem alook_range_none {β : Type} (key : Nat → RKey) (v : Nat → β)
    (hinj : ∀ x y, key x = key y → x = y) :
    ∀ (n i : Nat), n ≤ i →
      alook ((List.range n).map (fun j => (key j, v j))) (key i) = none := by
  intro n
  induction n with
  | zero => intro i _; rfl
  | succ n ih =>
    intro i hi
    rw [List.range_succ, List.map_append, alook_append]
    rw [ih i (by omega)]
    show alook [(key n, v n)] (key i) = none
    have hne : ¬ (key n = key i) := fun h => by have := hinj n i h; omega
    simp [alook, hne]

/-- Lookup of an in-range index in an indexed map built over `List.range`. -/
theorem alook_range_some {β : Type} (key : Nat → RKey) (v : Nat → β)
    (hinj : ∀ x y, key x = key y → x = y) :
    ∀ (n i : Nat), i < n →
      alook ((List.range n).map (fun j => (key j, v j))) (key i) = some (v i) := by
  intro n
  induction n with
  | zero => intro i hi; omega
  | succ n ih =>
    intro i hi
    rw [List.range_succ, List.map_append, alook_append]
    by_cases hin : i < n
    · rw [ih i hin]
    · have hieq : i = n := by omega
      subst hieq
      rw [alook_range_none key v hinj i i (by omega)]
      simp [alook]

/-- Update at an absent key in the left part of an append goes right. -/
theorem aset_append_right {κ : Type} [DecidableEq κ] {α : Type} (l1 l2 : List (κ × α)) (k : κ)
    (w : α) (h : alook l1 k = none) : aset (l1 ++ l2) k w = l1 ++ aset l2 k w := by
  induction l1 with
  | nil => rfl
  | cons hd t ih =>
    rcases hd with ⟨k', r'⟩
    by_cases hk : k' = k
    · subst hk; simp [alook] at h
    · simp only [alook, if_neg hk] at h
      simp [aset, hk, ih h]

/-- Update at a present key in the left part of an append stays left. -/
theorem aset_append_left {κ : Type} [DecidableEq κ] {α : Type} (l1 l2 : List (κ × α)) (k : κ)
    (w : α) (h : (alook l1 k).isSome = true) : aset (l1 ++ l2) k w = aset l1 k w ++ l2 := by
  induction l1 with
  | nil => simp [alook] at h
  | cons hd t ih =>
    rcases hd with ⟨k', r'⟩
    by_cases hk : k' = k
    · subst hk; simp [aset]
    · simp only [alook, if_neg hk] at h
      simp [aset, hk, ih h]

/-- Updating an in-range index of an indexed map rebuilds the same map with
one changed entry. -/
theorem aset_range {β : Type} (key : Nat → RKey) (v : Nat → β)
    (hinj : ∀ x y, key x = key y → x = y) :
    ∀ (n i : Nat) (w : β), i < n →
      aset ((List.range n).map (fun j => (key j, v j))) (key i) w
        = (List.range n).map (fun j => (key j, if j = i then w else v j)) := by
  intro n
  induction n with
  | zero => intro i w hi; omega
  | succ n ih =>
    intro i w hi
    rw [List.range_succ, List.map_append]
    by_cases hin : i < n
    · rw [aset_append_left _ _ _ _ (by rw [alook_range_some key v hinj n i hin]; rfl)]
      rw [ih i w hin]
      rw [List.map_append]
      have hne : ¬ (n = i) := by omega
      simp [hne]
    · have hieq : i = n := by omega
      subst hieq
      rw [aset_append_right _ _ _ _ (alook_range_none key v hinj i i (by omega))]
      rw [List.map_append]
      have hcong : (List.range i).map (fun j => (key j, v j))
          = (List.range i).map (fun j => (key j, if j = i then w else v j)) := by
        apply List.map_congr_left
        intro j hj
        rw [List.mem_range] at hj
        have : ¬ (j = i) := by omega
        simp [this]
      rw [← hcong]
      simp [aset]

/-- The registry of the cycle store is the cycle registry. -/
theorem stRecs_cyc (n lo hi : Nat) : stRecs (mkCycSt n lo hi) 0 = cycRecs n lo hi := rfl

/-- The key scheme of the cycle registry is injective. -/
theorem cycKey_inj : ∀ x y : Nat,
    getId (Token.num (Int.ofNat x)) = getId (Token.num (Int.ofNat y)) → x = y := by
  intro x y h
  simp [getId] at h
  exact h

/-- Updating the value slot of a cycle record changes only the slot. -/
theorem cycRec_set (n i : Nat) (x s : Slot) :
    { cycRec n i x with value := s } = cycRec n i s := rfl

/-- Lookup of an in-range token in the cycle registry. -/
theorem cyc_alook (n lo hi i : Nat) (hin : i < n) :
    alook (cycRecs n lo hi) (getId (Token.num (Int.ofNat i)))
      = some (cycRec n i (cycSlot lo hi i)) := by
  unfold cycRecs
  exact alook_range_some (fun j => getId (Token.num (Int.ofNat j)))
    (fun j => cycRec n j (cycSlot lo hi j)) cycKey_inj n i hin

/-- A slot write on the cycle store moves between cycle stores whenever the
new slot value and the untouched slots match the target window. -/
theorem cyc_setSlot (n lo hi lo2 hi2 i : Nat) (s : Slot) (hin : i < n)
    (hs : cycSlot lo2 hi2 i = s)
    (hother : ∀ j, j < n → j ≠ i → cycSlot lo hi j = cycSlot lo2 hi2 j) :
    setSlot (mkCycSt n lo hi) 0 (getId (Token.num (Int.ofNat i))) s = mkCycSt n lo2 hi2 := by
  have halo : alook (stRecs (mkCycSt n lo hi) 0) (getId (Token.num (Int.ofNat i)))
      = some (cycRec n i (cycSlot lo hi i)) := by
    rw [stRecs_cyc]; exact cyc_alook n lo hi i hin
  have hstore : aset (cycRecs n lo hi) (getId (Token.num (Int.ofNat i)))
      { cycRec n i (cycSlot lo hi i) with value := s } = cycRecs n lo2 hi2 := by
    rw [cycRec_set]
    unfold cycRecs
    rw [aset_range (fun j => getId (Token.num (Int.ofNat j)))
      (fun j => cycRec n j (cycSlot lo hi j)) cycKey_inj n i (cycRec n i s) hin]
    apply List.map_congr_left
    intro j hj
    rw [List.mem_range] at hj
    by_cases hji : j = i
    · subst hji
      rw [if_pos rfl, ← hs]
    · rw [if_neg hji, hother j hj hji]
  simp only [setSlot, halo]
  rw [stRecs_cyc, hstore]
  rfl

/-- A degenerate in-progress window is no window at all. -/
theorem cycSt_degenerate (n lo : Nat) : mkCycSt n lo lo = mkCycSt n 0 0 := by
  unfold mkCycSt
  have h : cycRecs n lo lo = cycRecs n 0 0 := by
    unfold cycRecs
    apply List.map_congr_left
    intro j _
    have h1 : cycSlot lo lo j = Slot.empty := by
      unfold cycSlot; rw [if_neg (show ¬ (lo ≤ j ∧ j < lo) by omega)]
    have h2 : cycSlot 0 0 j = Slot.empty := by
      unfold cycSlot; rw [if_neg (show ¬ (0 ≤ j ∧ j < 0) by omega)]
    rw [h1, h2]
  rw [h]

/-- Peeling the head off the token path of the circular failure. -/
theorem cycPath_cons (n j : Nat) (h : j < n) :
    cycPath n j = Token.num (Int.ofNat j) :: cycPath n (j + 1) := by
  unfold cycPath
  have h1 : n - j + 1 = (n - (j + 1) + 1) + 1 := by omega
  rw [h1, List.range_succ_eq_map, List.map_cons, List.map_map]
  congr 1
  · rw [Nat.add_zero, Nat.mod_eq_of_lt h]
  · apply List.map_congr_left
    intro i _
    show Token.num (Int.ofNat ((j + (i + 1)) % n)) = Token.num (Int.ofNat ((j + 1 + i) % n))
    rw [show j + (i + 1) = j + 1 + i by omega]

/-- Marching around the `n`-cycle: with records `[0, j)` already marked
in-progress, resolving token `j` marks the records `j, j+1, ..., n-1`, hits
the in-progress mark on record `0`, and unwinds: the circular error comes
back carrying the token path `j+1, ..., n-1, 0`, with every mark above `0`
cleared again (the window shrinks to `[1, j+1)`). -/
theorem cycMarch (env : FnEnv) (parent : Scope) (n : Nat) :
    ∀ (d : Nat), ∀ (F j : Nat) (nf : NotFound), j + d + 1 = n →
      run env (F + 3 * d + 4)
          (CallK.resC 0 parent (Token.num (Int.ofNat j))
            (some (getId (Token.num (Int.ofNat j)))) nf)
          (mkCycSt n 0 j)
        = (Except.error (cycErr n (j + 1)), mkCycSt n 1 (j + 1)) := by
  intro d
  induction d with
  | zero =>
    intro F j nf hj
    have hjn : j + 1 = n := by omega
    subst hjn
    have hres0 : run env (F + 1)
        (CallK.resC 0 parent (Token.num (Int.ofNat 0))
          (some (getId (Token.num (Int.ofNat 0)))) NotFound.throwIfNotFound)
        (mkCycSt (j + 1) 0 (j + 1))
        = (Except.error circularErr, mkCycSt (j + 1) 0 (j + 1)) := by
      apply run_resC_circular env F 0 parent _ _ _ _ (cycRec (j + 1) 0 (cycSlot 0 (j + 1) 0))
      · rw [stRecs_cyc]; exact cyc_alook (j + 1) 0 (j + 1) 0 (by omega)
      · show cycSlot 0 (j + 1) 0 = Slot.circular
        unfold cycSlot; rw [if_pos (show 0 ≤ 0 ∧ 0 < j + 1 by omega)]
    have hunmark : setSlot (mkCycSt (j + 1) 0 (j + 1)) 0 (getId (Token.num (Int.ofNat 0)))
        Slot.empty = mkCycSt (j + 1) 1 (j + 1) := by
      apply cyc_setSlot (j + 1) 0 (j + 1) 1 (j + 1) 0 Slot.empty (by omega)
      · unfold cycSlot; rw [if_neg (show ¬ (1 ≤ 0 ∧ 0 < j + 1) by omega)]
      · intro j2 _ hne
        unfold cycSlot
        split_ifs with h1 h2 <;> first | rfl | (exfalso; omega)
    have htry0 : run env (F + 2)
        (CallK.tryC 0 parent (Token.num (Int.ofNat 0))
          (some (getId (Token.num (Int.ofNat 0)))) NotFound.throwIfNotFound)
        (mkCycSt (j + 1) 0 (j + 1))
        = (Except.error { circularErr with tempPath := some [Token.num (Int.ofNat 0)] },
            mkCycSt (j + 1) 1 (j + 1)) := by
      have h := run_tryC_err_reset env (F + 1) 0 parent (Token.num (Int.ofNat 0))
        (getId (Token.num (Int.ofNat 0))) NotFound.throwIfNotFound
        (mkCycSt (j + 1) 0 (j + 1)) (mkCycSt (j + 1) 0 (j + 1)) circularErr
        (cycRec (j + 1) 0 (cycSlot 0 (j + 1) 0)) hres0
        (by rw [stRecs_cyc]; exact cyc_alook (j + 1) 0 (j + 1) 0 (by omega))
        (by show cycSlot 0 (j + 1) 0 = Slot.circular
            unfold cycSlot; rw [if_pos (show 0 ≤ 0 ∧ 0 < j + 1 by omega)])
      rw [hunmark] at h
      exact h
    have hdeps0 : run env (F + 3)
        (CallK.depsC 0 parent [cycDep (j + 1) j]) (mkCycSt (j + 1) 0 (j + 1))
        = (Except.error { circularErr with tempPath := some [Token.num (Int.ofNat 0)] },
            mkCycSt (j + 1) 1 (j + 1)) := by
      have hcd : cycDep (j + 1) j
          = ({ id := getId (Token.num (Int.ofNat 0)), token := Token.num (Int.ofNat 0)
               options := OPT_DEFAULT } : DependencyRecord) := by
        simp only [cycDep, Nat.mod_self]
      rw [hcd]
      apply run_depsC_cons_err env (F + 2) 0 parent _ [] _ _ _ _ _ htry0
      · rw [show stRecs (mkCycSt (j + 1) 0 (j + 1)) 0 = cycRecs (j + 1) 0 (j + 1) from rfl,
          cyc_alook (j + 1) 0 (j + 1) 0 (by omega)]
        show ((OPT_DEFAULT &&& OPT_CHECK_SELF) != 0
            && (some (cycRec (j + 1) 0 (cycSlot 0 (j + 1) 0))).isSome) = true
        rw [Option.isSome_some, Bool.and_true]
        decide
      · show ((OPT_DEFAULT &&& OPT_OPTIONAL) != 0) = false
        decide
    have hmark : setSlot (mkCycSt (j + 1) 0 j) 0 (getId (Token.num (Int.ofNat j)))
        Slot.circular = mkCycSt (j + 1) 0 (j + 1) := by
      apply cyc_setSlot (j + 1) 0 j 0 (j + 1) j Slot.circular (by omega)
      · unfold cycSlot; rw [if_pos (show 0 ≤ j ∧ j < j + 1 by omega)]
      · intro j2 _ hne
        unfold cycSlot
        split_ifs with h1 h2 <;> first | rfl | (exfalso; omega)
    have hpath : cycPath (j + 1) (j + 1) = [Token.num (Int.ofNat 0)] := by
      unfold cycPath
      rw [Nat.sub_self, List.range_succ]
      simp only [List.range_zero, List.nil_append, List.map_cons, List.map_nil]
      rw [Nat.add_zero, Nat.mod_self]
    have hE : ({ circularErr with tempPath := some [Token.num (Int.ofNat 0)] } : JsError)
        = cycErr (j + 1) (j + 1) := by
      unfold cycErr
      rw [hpath]
      rfl
    rw [← hE]
    apply run_resC_empty_err env (F + 3) 0 parent _ _ nf _
      (cycRec (j + 1) j (cycSlot 0 j j)) _ _
      (by rw [stRecs_cyc]; exact cyc_alook (j + 1) 0 j j (by omega))
      (by show cycSlot 0 j j = Slot.empty
          unfold cycSlot; rw [if_neg (show ¬ (0 ≤ j ∧ j < j) by omega)])
      (by rw [hmark]; exact hdeps0)
  | succ d ih =>
    intro F j nf hj
    have hih := ih F (j + 1) NotFound.throwIfNotFound (by omega)
    have halo2 : alook (stRecs (mkCycSt n 1 (j + 2)) 0) (getId (Token.num (Int.ofNat (j + 1))))
        = some (cycRec n (j + 1) (cycSlot 1 (j + 2) (j + 1))) := by
      rw [stRecs_cyc]; exact cyc_alook n 1 (j + 2) (j + 1) (by omega)
    have hv2 : (cycRec n (j + 1) (cycSlot 1 (j + 2) (j + 1))).value = Slot.circular := by
      show cycSlot 1 (j + 2) (j + 1) = Slot.circular
      unfold cycSlot; rw [if_pos (show 1 ≤ j + 1 ∧ j + 1 < j + 2 by omega)]
    have hunmark : setSlot (mkCycSt n 1 (j + 2)) 0 (getId (Token.num (Int.ofNat (j + 1))))
        Slot.empty = mkCycSt n 1 (j + 1) := by
      apply cyc_setSlot n 1 (j + 2) 1 (j + 1) (j + 1) Slot.empty (by omega)
      · unfold cycSlot; rw [if_neg (show ¬ (1 ≤ j + 1 ∧ j + 1 < j + 1) by omega)]
      · intro j2 _ hne
        unfold cycSlot
        split_ifs with h1 h2 <;> first | rfl | (exfalso; omega)
    have herr : ({ cycErr n (j + 2) with
          tempPath := some (Token.num (Int.ofNat (j + 1))
            :: (cycErr n (j + 2)).tempPath.getD []) } : JsError)
        = cycErr n (j + 1) := by
      simp only [cycErr, Option.getD_some]
      rw [cycPath_cons n (j + 1) (by omega)]
    have htry : run env (F + 3 * d + 5)
        (CallK.tryC 0 parent (Token.num (Int.ofNat (j + 1)))
          (some (getId (Token.num (Int.ofNat (j + 1))))) NotFound.throwIfNotFound)
        (mkCycSt n 0 (j + 1))
        = (Except.error (cycErr n (j + 1)), mkCycSt n 1 (j + 1)) := by
      have h := run_tryC_err_reset env (F + 3 * d + 4) 0 parent
        (Token.num (Int.ofNat (j + 1))) (getId (Token.num (Int.ofNat (j + 1))))
        NotFound.throwIfNotFound (mkCycSt n 0 (j + 1)) (mkCycSt n 1 (j + 2))
        (cycErr n (j + 2)) (cycRec n (j + 1) (cycSlot 1 (j + 2) (j + 1))) hih halo2 hv2
      rw [herr, hunmark] at h
      exact h
    have hdeps : run env (F + 3 * d + 6)
        (CallK.depsC 0 parent [cycDep n j]) (mkCycSt n 0 (j + 1))
        = (Except.error (cycErr n (j + 1)), mkCycSt n 1 (j + 1)) := by
      have hcd : cycDep n j
          = ({ id := getId (Token.num (Int.ofNat (j + 1))), token := Token.num (Int.ofNat (j + 1))
               options := OPT_DEFAULT } : DependencyRecord) := by
        simp only [cycDep, Nat.mod_eq_of_lt (show j + 1 < n by omega)]
      rw [hcd]
      apply run_depsC_cons_err env (F + 3 * d + 5) 0 parent _ [] _ _ _ _ _ htry
      · rw [show stRecs (mkCycSt n 0 (j + 1)) 0 = cycRecs n 0 (j + 1) from rfl,
          cyc_alook n 0 (j + 1) (j + 1) (by omega)]
        show ((OPT_DEFAULT &&& OPT_CHECK_SELF) != 0
            && (some (cycRec n (j + 1) (cycSlot 0 (j + 1) (j + 1)))).isSome) = true
        rw [Option.isSome_some, Bool.and_true]
        decide
      · show ((OPT_DEFAULT &&& OPT_OPTIONAL) != 0) = false
        decide
    have hmark : setSlot (mkCycSt n 0 j) 0 (getId (Token.num (Int.ofNat j)))
        Slot.circular = mkCycSt n 0 (j + 1) := by
      apply cyc_setSlot n 0 j 0 (j + 1) j Slot.circular (by omega)
      · unfold cycSlot; rw [if_pos (show 0 ≤ j ∧ j < j + 1 by omega)]
      · intro j2 _ hne
        unfold cycSlot
        split_ifs with h1 h2 <;> first | rfl | (exfalso; omega)
    rw [show F + 3 * (d + 1) + 4 = F + 3 * d + 7 by omega]
    apply run_resC_empty_err env (F + 3 * d + 6) 0 parent _ _ nf _
      (cycRec n j (cycSlot 0 j j)) _ _
      (by rw [stRecs_cyc]; exact cyc_alook n 0 j j (by omega))
      (by show cycSlot 0 j j = Slot.empty
          unfold cycSlot; rw [if_neg (show ¬ (0 ≤ j ∧ j < j) by omega)])
      (by rw [hmark]; exact hdeps)

/-- Forward computation of `StaticInjector.get` on a failing
`tryResolveToken`: the error is reformatted by the `catch` block. -/
theorem run_getC_node_err (env : FnEnv) (f sid : Nat) (parent : Scope) (t : Token)
    (nf : NotFound) (st st2 : St) (e : JsError) (rid : Option RKey)
    (hrid : (if (alook (stRecs st sid) (getId t)).isSome then some (getId t) else none) = rid)
    (h : run env f (CallK.tryC sid parent t rid nf) st = (Except.error e, st2)) :
    run env (f + 1) (CallK.getC (Scope.node sid parent) t nf) st
      = (Except.error (reformatError e), st2) := by
  simp only [run, hrid, h]

/-- C2: for every cycle length `n ≥ 1` (the registry in which token `i`
depends on token `(i + 1) % n`, covering the self-dependency `n = 1`) and
every sufficiently large fuel, `get` on token `0` fails with the
circular-dependency error (the in-progress mark stops the recursion after one
lap, at bounded depth), and every in-progress mark is cleared again. -/
theorem dependencyCycleCircularError (env : FnEnv) (parent : Scope) (nf : NotFound)
    (n F : Nat) (hn : 1 ≤ n) :
    injectorGet env (F + 3 * n + 3) (Scope.node 0 parent) (mkCycSt n 0 0)
        (Token.num (Int.ofNat 0)) nf
      = (Except.error (reformatError (cycErr n 0)), mkCycSt n 0 0)
      ∧ (reformatError (cycErr n 0)).tag = ErrTag.circular := by
  constructor
  · have hres := cycMarch env parent n (n - 1) F 0 nf (by omega)
    rw [show F + 3 * (n - 1) + 4 = F + 3 * n + 1 by omega] at hres
    have htry := run_tryC_err_empty env (F + 3 * n + 1) 0 parent (Token.num (Int.ofNat 0))
      (getId (Token.num (Int.ofNat 0))) nf (mkCycSt n 0 0) (mkCycSt n 1 1) (cycErr n 1)
      (cycRec n 0 (cycSlot 1 1 0)) hres
      (by rw [stRecs_cyc]; exact cyc_alook n 1 1 0 (by omega))
      (by show cycSlot 1 1 0 = Slot.empty
          unfold cycSlot; rw [if_neg (show ¬ (1 ≤ 0 ∧ 0 < 1) by omega)])
    have herr : ({ cycErr n 1 with
          tempPath := some (Token.num (Int.ofNat 0) :: (cycErr n 1).tempPath.getD []) }
          : JsError) = cycErr n 0 := by
      simp only [cycErr, Option.getD_some]
      rw [cycPath_cons n 0 (by omega)]
    rw [herr] at htry
    have hget := run_getC_node_err env (F + 3 * n + 2) 0 parent (Token.num (Int.ofNat 0)) nf
      (mkCycSt n 0 0) (mkCycSt n 1 1) (cycErr n 0) (some (getId (Token.num (Int.ofNat 0))))
      (by rw [stRecs_cyc, cyc_alook n 0 0 0 (by omega)]; rfl) htry
    rw [cycSt_degenerate n 1] at hget
    show injectorGet env (F + 3 * n + 3) (Scope.node 0 parent) (mkCycSt n 0 0)
        (Token.num (Int.ofNat 0)) nf = _
    unfold injectorGet
    rw [hget]
  · rfl

/-- Concrete check of `dependencyCycleCircularError` on the two-token cycle
`A -> B -> A` with fuel `9`. -/
theorem dependencyCycleCircularErrorWitness :
    injectorGet envFirstArg 9 (Scope.node 0 Scope.null) (mkCycSt 2 0 0)
        (Token.num (Int.ofNat 0)) NotFound.throwIfNotFound
      = (Except.error (reformatError (cycErr 2 0)), mkCycSt 2 0 0)
      ∧ (reformatError (cycErr 2 0)).tag = ErrTag.circular :=
  dependencyCycleCircularError envFirstArg Scope.null NotFound.throwIfNotFound 2 0 (by decide)
